import Mathlib

/-
Verification of the GPUMD core components (Stillinger-Weber force kernel,
VAC/SDC/DOS engine, GKMA/HNEMA modal analysis) against their specification.

Shallow embedding conventions:
  * `double` values are modelled as exact rationals (ℚ); the special functions
    `exp`, `sqrt` and `rsqrt` of the math library, and the minimum-image
    convention service `dev_apply_mic`, are passed in as function parameters,
    so every definition stays computable and can be evaluated on concrete
    inputs.
  * CUDA device arrays are modelled as total functions `ℕ → ℚ` over the flat
    indices used by the kernels; a kernel launch becomes a pure function from
    the old array contents to the new ones.  Distinct threads of the kernels
    modelled here write pairwise distinct indices, so the parallel launch is
    the simultaneous update of each written index.
-/

set_option maxHeartbeats 1000000

/-! ### VAC / SDC / DOS engine (vac.cu)  -/

/-- Outcome of the flag-validation prologue of `VAC::preprocess`:
`earlyReturn` for the `if (!compute_dos && !compute_sdc) return;` path,
`inputError` when `PRINT_INPUT_ERROR("Cannot calculate DOS and SDC
simultaneously.")` fires on `compute_dos == compute_sdc`, and `ok` when
preprocessing continues past the flag checks. -/
inductive VacPreOutcome
  | earlyReturn
  | inputError
  | ok
  deriving DecidableEq

/-- The flag checks at the top of `VAC::preprocess` (vac.cu). -/
def vacPreprocessCheck (compute_dos compute_sdc : Bool) : VacPreOutcome :=
  if !compute_dos && !compute_sdc then .earlyReturn
  else if compute_dos == compute_sdc then .inputError
  else .ok

/-- `integrate_vac` (vac.cu): `sdc[0] = 0` and
`sdc[nc] = sdc[nc-1] + (vac[nc-1] + vac[nc]) * dt2` with `dt2 = dt * 0.5`. -/
def integrate_vac (dt : ℚ) (vac : ℕ → ℚ) : ℕ → ℚ
  | 0 => 0
  | n + 1 => integrate_vac dt vac n + (vac n + vac (n + 1)) * (dt * (1 / 2))

/-- The SDC normalization step of `VAC::postprocess`:
`vac[nc] /= double(N) * num_time_origins`. -/
def vacNormalizeSdc (N num_time_origins : ℕ) (vac : ℕ → ℚ) : ℕ → ℚ :=
  fun nc => vac nc / ((N : ℚ) * (num_time_origins : ℚ))

/-- One `gpu_copy_velocity` launch writing through an offset pointer into a
flat circular buffer: indices `[offset, offset + N)` receive `vin 0 .. vin
(N-1)`; all other indices keep their previous contents. -/
def bufWrite (N offset : ℕ) (vin buf : ℕ → ℚ) : ℕ → ℚ :=
  fun idx => if offset ≤ idx ∧ idx < offset + N then vin (idx - offset) else buf idx

/-- The grouped overload of `gpu_copy_velocity`: element `n` of the output is
input element `contents[goffset + n]` (the group member list). -/
def groupSelect (goffset : ℕ) (contents : ℕ → ℕ) (vin : ℕ → ℚ) : ℕ → ℚ :=
  fun n => vin (contents (goffset + n))

/-- Destination lag bin of block `bid` in `gpu_find_vac`: the kernel adds
block `bid`'s reduction into `g_vac[correlation_step - bid]` when
`bid <= correlation_step` and into `g_vac[correlation_step + gridDim.x - bid]`
otherwise (`gridDim.x = Nc`). -/
def vacTarget (Nc cs bid : ℕ) : ℕ :=
  if bid ≤ cs then cs - bid else cs + Nc - bid

/-- The tree-reduced per-block sum of `gpu_find_vac`: block `bid` (with
`size_sum = bid * N`) accumulates `mass * v_cur[n] * v_all[size_sum + n]`
over all atoms `n < N`, with mass factor 1 unless DOS is computed. -/
def vacBlockSum (N : ℕ) (compute_dos : Bool) (mass vcur vall : ℕ → ℚ) (size_sum : ℕ) : ℚ :=
  ∑ n in Finset.range N, (if compute_dos then mass n else 1) * vcur n * vall (size_sum + n)

/-- The `gpu_find_vac` kernel launch `<<<Nc, BLOCK_SIZE>>>`: each block `bid`
adds its reduced sum into the lag bin `vacTarget Nc cs bid`; distinct blocks
target distinct bins. -/
def gpu_find_vac (N Nc cs : ℕ) (compute_dos : Bool) (mass vcur vall vac : ℕ → ℚ) : ℕ → ℚ :=
  fun lag => vac lag +
    ∑ bid in Finset.range Nc,
      if vacTarget Nc cs bid = lag then vacBlockSum N compute_dos mass vcur vall (bid * N) else 0

/-- Device state owned by the VAC engine: the three flat circular velocity
buffers (`Nc` frames of `N` entries each), the per-lag accumulators, and the
time-origin counter. -/
structure VacState where
  vx : ℕ → ℚ
  vy : ℕ → ℚ
  vz : ℕ → ℚ
  vac_x : ℕ → ℚ
  vac_y : ℕ → ℚ
  vac_z : ℕ → ℚ
  num_time_origins : ℕ

/-- Configuration of the VAC engine fixed at preprocessing. `grouping` is
`some (offset, contents)` when a grouping method is selected (the offset is
`cpu_size_sum[group]`) and `none` for `grouping_method == -1`. -/
structure VacConfig where
  compute_dos : Bool
  compute_sdc : Bool
  sample_interval : ℕ
  Nc : ℕ
  N : ℕ
  grouping : Option (ℕ × (ℕ → ℕ))
  mass : ℕ → ℚ

/-- Velocity selection used by `VAC::process`: the grouped or ungrouped
`gpu_copy_velocity` source. -/
def vacSelect (cfg : VacConfig) (vin : ℕ → ℚ) : ℕ → ℚ :=
  match cfg.grouping with
  | some (go, contents) => groupSelect go contents vin
  | none => fun n => vin n

/-- `VAC::process(step, atom)`: gated by the flags and the sample interval;
copies the (group-selected) current velocities into circular-buffer slot
`correlation_step = sample_step % Nc`, then, once `sample_step >= Nc - 1`,
increments `num_time_origins` and launches `gpu_find_vac` with
`g_v = v + offset` (the freshly written frame) and `g_v_all = v`. -/
def VAC_process (cfg : VacConfig) (step : ℕ) (avx avy avz : ℕ → ℚ) (st : VacState) : VacState :=
  if !(cfg.compute_dos || cfg.compute_sdc) then st
  else if ¬((step + 1) % cfg.sample_interval = 0) then st
  else
    let sample_step := step / cfg.sample_interval
    let cs := sample_step % cfg.Nc
    let offset := cs * cfg.N
    let vx1 := bufWrite cfg.N offset (vacSelect cfg avx) st.vx
    let vy1 := bufWrite cfg.N offset (vacSelect cfg avy) st.vy
    let vz1 := bufWrite cfg.N offset (vacSelect cfg avz) st.vz
    if cfg.Nc - 1 ≤ sample_step then
      { vx := vx1, vy := vy1, vz := vz1
        vac_x := gpu_find_vac cfg.N cfg.Nc cs cfg.compute_dos cfg.mass
          (fun n => vx1 (offset + n)) vx1 st.vac_x
        vac_y := gpu_find_vac cfg.N cfg.Nc cs cfg.compute_dos cfg.mass
          (fun n => vy1 (offset + n)) vy1 st.vac_y
        vac_z := gpu_find_vac cfg.N cfg.Nc cs cfg.compute_dos cfg.mass
          (fun n => vz1 (offset + n)) vz1 st.vac_z
        num_time_origins := st.num_time_origins + 1 }
    else
      { st with vx := vx1, vy := vy1, vz := vz1 }

/-- A concrete VAC configuration (SDC mode, no grouping) used to evaluate the
engine on explicit inputs. -/
def c1cfg : VacConfig :=
  { compute_dos := false, compute_sdc := true, sample_interval := 1, Nc := 2, N := 1
    grouping := none, mass := fun _ => 1 }

/-- A concrete VAC device state used to evaluate the engine on explicit
inputs. -/
def c1st : VacState :=
  { vx := fun _ => 0, vy := fun _ => 0, vz := fun _ => 0
    vac_x := fun _ => 0, vac_y := fun _ => 0, vac_z := fun _ => 0
    num_time_origins := 0 }

/-! ### Stillinger-Weber potential (sw.cu)  -/

/-- The SW parameter tables (`SW2_Para`): per-type-pair 2-body constants and
the derived cutoff `rc`, plus per-type-triple 3-body constants.  Entries the
initializers do not write keep the (arbitrary) prior contents of the
uninitialized member, modelled by the `base` tables. -/
structure SW2_Para where
  A : ℕ → ℕ → ℚ
  B : ℕ → ℕ → ℚ
  a : ℕ → ℕ → ℚ
  sigma : ℕ → ℕ → ℚ
  gamma : ℕ → ℕ → ℚ
  rc : ℕ → ℕ → ℚ
  lambda : ℕ → ℕ → ℕ → ℚ
  cos0 : ℕ → ℕ → ℕ → ℚ

/-- `SW2::initialize_sw_1985_1`: single-element parameters; stores
`A[0][0] = epsilon * A`, `rc[0][0] = sigma * a`,
`lambda[0][0][0] = epsilon * lambda` and the remaining scalars at `[0][0]`. -/
def init_sw_1985_1 (base : SW2_Para)
    (epsilon lambda0 A0 B0 a0 gamma0 sigma0 cos00 : ℚ) : SW2_Para :=
  { A := fun n1 n2 => if n1 = 0 ∧ n2 = 0 then epsilon * A0 else base.A n1 n2
    B := fun n1 n2 => if n1 = 0 ∧ n2 = 0 then B0 else base.B n1 n2
    a := fun n1 n2 => if n1 = 0 ∧ n2 = 0 then a0 else base.a n1 n2
    sigma := fun n1 n2 => if n1 = 0 ∧ n2 = 0 then sigma0 else base.sigma n1 n2
    gamma := fun n1 n2 => if n1 = 0 ∧ n2 = 0 then gamma0 else base.gamma n1 n2
    rc := fun n1 n2 => if n1 = 0 ∧ n2 = 0 then sigma0 * a0 else base.rc n1 n2
    lambda := fun n1 n2 n3 =>
      if n1 = 0 ∧ n2 = 0 ∧ n3 = 0 then epsilon * lambda0 else base.lambda n1 n2 n3
    cos0 := fun n1 n2 n3 =>
      if n1 = 0 ∧ n2 = 0 ∧ n3 = 0 then cos00 else base.cos0 n1 n2 n3 }

/-- `SW2::initialize_sw_1985_2`: three 2-body rows are read (`A2 0 .. A2 2`
etc.) and the pair `(n1, n2)` gets row `n1 + n2`, with
`rc[n1][n2] = sigma[n1+n2] * a[n1+n2]`; the eight 3-body rows are read in
`(n1, n2, n3)` loop order (modelled by the row functions `lambda2`,
`cos02`). -/
def init_sw_1985_2 (base : SW2_Para) (A2 B2 a2 sigma2 gamma2 : ℕ → ℚ)
    (lambda2 cos02 : ℕ → ℕ → ℕ → ℚ) : SW2_Para :=
  { A := fun n1 n2 => if n1 < 2 ∧ n2 < 2 then A2 (n1 + n2) else base.A n1 n2
    B := fun n1 n2 => if n1 < 2 ∧ n2 < 2 then B2 (n1 + n2) else base.B n1 n2
    a := fun n1 n2 => if n1 < 2 ∧ n2 < 2 then a2 (n1 + n2) else base.a n1 n2
    sigma := fun n1 n2 => if n1 < 2 ∧ n2 < 2 then sigma2 (n1 + n2) else base.sigma n1 n2
    gamma := fun n1 n2 => if n1 < 2 ∧ n2 < 2 then gamma2 (n1 + n2) else base.gamma n1 n2
    rc := fun n1 n2 =>
      if n1 < 2 ∧ n2 < 2 then sigma2 (n1 + n2) * a2 (n1 + n2) else base.rc n1 n2
    lambda := fun n1 n2 n3 =>
      if n1 < 2 ∧ n2 < 2 ∧ n3 < 2 then lambda2 n1 n2 n3 else base.lambda n1 n2 n3
    cos0 := fun n1 n2 n3 =>
      if n1 < 2 ∧ n2 < 2 ∧ n3 < 2 then cos02 n1 n2 n3 else base.cos0 n1 n2 n3 }

/-- `SW2::initialize_sw_1985_3`: nine 2-body rows are read in `(n1, n2)` loop
order, so each ORDERED pair has its own row (`A3 n1 n2` is the `A` value of
file row `3*n1 + n2`), and `rc[n1][n2] = sigma[n1][n2] * a[n1][n2]`. -/
def init_sw_1985_3 (base : SW2_Para) (A3 B3 a3 sigma3 gamma3 : ℕ → ℕ → ℚ)
    (lambda3 cos03 : ℕ → ℕ → ℕ → ℚ) : SW2_Para :=
  { A := fun n1 n2 => if n1 < 3 ∧ n2 < 3 then A3 n1 n2 else base.A n1 n2
    B := fun n1 n2 => if n1 < 3 ∧ n2 < 3 then B3 n1 n2 else base.B n1 n2
    a := fun n1 n2 => if n1 < 3 ∧ n2 < 3 then a3 n1 n2 else base.a n1 n2
    sigma := fun n1 n2 => if n1 < 3 ∧ n2 < 3 then sigma3 n1 n2 else base.sigma n1 n2
    gamma := fun n1 n2 => if n1 < 3 ∧ n2 < 3 then gamma3 n1 n2 else base.gamma n1 n2
    rc := fun n1 n2 =>
      if n1 < 3 ∧ n2 < 3 then sigma3 n1 n2 * a3 n1 n2 else base.rc n1 n2
    lambda := fun n1 n2 n3 =>
      if n1 < 3 ∧ n2 < 3 ∧ n3 < 3 then lambda3 n1 n2 n3 else base.lambda n1 n2 n3
    cos0 := fun n1 n2 n3 =>
      if n1 < 3 ∧ n2 < 3 ∧ n3 < 3 then cos03 n1 n2 n3 else base.cos0 n1 n2 n3 }

/-- The per-atom slot capacity of the partial-force buffers fixed in the
`SW2` constructor: `(atom->neighbor.MN < 50) ? atom->neighbor.MN : 50`; the
buffers hold `atom->N * sw2_num_of_neighbors MN` doubles each. -/
def sw2_num_of_neighbors (MN : ℕ) : ℕ :=
  if MN < 50 then MN else 50

/-- `find_p2_and_f2` (sw.cu): the two-body energy `p2` and scalar force `f2`
of the SW potential; `epsilon_times_A` is the table entry `A` (which carries
the `epsilon` prefactor from construction).  `expQ` stands for the `exp` of
the math library. -/
def find_p2_and_f2 (expQ : ℚ → ℚ) (sigma a B epsilon_times_A d12 : ℚ) : ℚ × ℚ :=
  let r12 := d12 / sigma
  let B_over_r12power4 := B / (r12 * r12 * r12 * r12)
  let exp_factor := epsilon_times_A * expQ (1 / (r12 - a))
  let p2 := exp_factor * (B_over_r12power4 - 1)
  let f2 := (-p2 / ((r12 - a) * (r12 - a)) - exp_factor * 4 * B_over_r12power4 / r12) /
    (sigma * d12)
  (p2, f2)

/-- Read-only atomic inputs of the SW kernels: the computed range
`[N1, N2)`, neighbor counts `NN`, the column-major flat neighbor list `NL`
(neighbor `i` of atom `n` at `i * N + n`), species types with the potential
`shift`, and positions. -/
structure SWAtomInput where
  N : ℕ
  N1 : ℕ
  N2 : ℕ
  NN : ℕ → ℕ
  NL : ℕ → ℕ
  typ : ℕ → ℕ
  shift : ℕ
  x : ℕ → ℚ
  y : ℕ → ℚ
  z : ℕ → ℚ

/-- Minimum-image displacement of the pair `(n1, n2)`:
`(x12, y12, z12) = dev_apply_mic(box, x[n2]-x[n1], ...)`; `mic` is the
external Box/MIC service. -/
def sw_disp (mic : ℚ → ℚ → ℚ → ℚ × ℚ × ℚ) (inp : SWAtomInput) (n1 n2 : ℕ) : ℚ × ℚ × ℚ :=
  mic (inp.x n2 - inp.x n1) (inp.y n2 - inp.y n1) (inp.z n2 - inp.z n1)

/-- Pair distance `d12 = sqrt(x12^2 + y12^2 + z12^2)`; `sqrtQ` stands for the
`sqrt` of the math library. -/
def sw_dist (mic : ℚ → ℚ → ℚ → ℚ × ℚ × ℚ) (sqrtQ : ℚ → ℚ) (inp : SWAtomInput)
    (n1 n2 : ℕ) : ℚ :=
  sqrtQ ((sw_disp mic inp n1 n2).1 * (sw_disp mic inp n1 n2).1 +
    (sw_disp mic inp n1 n2).2.1 * (sw_disp mic inp n1 n2).2.1 +
    (sw_disp mic inp n1 n2).2.2 * (sw_disp mic inp n1 n2).2.2)

/-- The neighbor `n2 = g_neighbor_list[i1 * N + n1]` of the pair slot
`(n1, i1)`. -/
def sw_pair_n2 (inp : SWAtomInput) (n1 i1 : ℕ) : ℕ :=
  inp.NL (i1 * inp.N + n1)

/-- The three-body inner loop of `gpu_find_force_sw3_partial` for the pair
`(n1, n2)`: the sum over second neighbors `n3` (slot `i2`, skipping
`n3 == n2` and `d13 >= rc`) of the tuple
(potential-energy contribution, f12x, f12y, f12z contribution). -/
def sw_three_body (expQ : ℚ → ℚ) (sqrtQ : ℚ → ℚ) (mic : ℚ → ℚ → ℚ → ℚ × ℚ × ℚ)
    (para : SW2_Para) (inp : SWAtomInput) (n1 n2 type1 type2 : ℕ)
    (gamma12 sigma12 a12 tmp d12 d12inv x12 y12 z12 : ℚ) : ℚ × ℚ × ℚ × ℚ :=
  ∑ i2 in Finset.range (inp.NN n1),
    (let n3 := inp.NL (n1 + inp.N * i2)
     if n3 = n2 then (0, 0, 0, 0)
     else
       let type3 := inp.typ n3 - inp.shift
       let x13 := (sw_disp mic inp n1 n3).1
       let y13 := (sw_disp mic inp n1 n3).2.1
       let z13 := (sw_disp mic inp n1 n3).2.2
       let d13 := sw_dist mic sqrtQ inp n1 n3
       if para.rc type1 type3 ≤ d13 then (0, 0, 0, 0)
       else
         let cos0 := para.cos0 type1 type2 type3
         let lam := para.lambda type1 type2 type3
         let exp123 := expQ (gamma12 / (d12 / sigma12 - a12) +
           para.gamma type1 type3 / (d13 / para.sigma type1 type3 - para.a type1 type3))
         let one_over_d12d13 := 1 / (d12 * d13)
         let cos123 := (x12 * x13 + y12 * y13 + z12 * z13) * one_over_d12d13
         let cos123_over_d12d12 := cos123 * d12inv * d12inv
         let tmp1 := exp123 * (cos123 - cos0) * lam
         let tmp2 := tmp * (cos123 - cos0) * d12inv
         ((cos123 - cos0) * tmp1 * (1 / 2),
          tmp1 * (2 * (x13 * one_over_d12d13 - x12 * cos123_over_d12d12) - tmp2 * x12),
          tmp1 * (2 * (y13 * one_over_d12d13 - y12 * cos123_over_d12d12) - tmp2 * y12),
          tmp1 * (2 * (z13 * one_over_d12d13 - z12 * cos123_over_d12d12) - tmp2 * z12)))

/-- The value the kernel computes for an in-cutoff pair slot `(n1, i1)`:
`(f12x, f12y, f12z, pe)` where `f12* = f2 * *12 * HALF + ` three-body terms
and `pe = p2 * HALF + ` three-body energy terms. -/
def sw_pair_value (expQ : ℚ → ℚ) (sqrtQ : ℚ → ℚ) (mic : ℚ → ℚ → ℚ → ℚ × ℚ × ℚ)
    (para : SW2_Para) (inp : SWAtomInput) (n1 i1 : ℕ) : ℚ × ℚ × ℚ × ℚ :=
  let n2 := sw_pair_n2 inp n1 i1
  let type1 := inp.typ n1 - inp.shift
  let type2 := inp.typ n2 - inp.shift
  let x12 := (sw_disp mic inp n1 n2).1
  let y12 := (sw_disp mic inp n1 n2).2.1
  let z12 := (sw_disp mic inp n1 n2).2.2
  let d12 := sw_dist mic sqrtQ inp n1 n2
  let d12inv := 1 / d12
  let gamma12 := para.gamma type1 type2
  let sigma12 := para.sigma type1 type2
  let a12 := para.a type1 type2
  let tmp := gamma12 / (sigma12 * (d12 / sigma12 - a12) * (d12 / sigma12 - a12))
  let pf := find_p2_and_f2 expQ sigma12 a12 (para.B type1 type2) (para.A type1 type2) d12
  let tb := sw_three_body expQ sqrtQ mic para inp n1 n2 type1 type2
    gamma12 sigma12 a12 tmp d12 d12inv x12 y12 z12
  (pf.2 * x12 * (1 / 2) + tb.2.1,
   pf.2 * y12 * (1 / 2) + tb.2.2.1,
   pf.2 * z12 * (1 / 2) + tb.2.2.2,
   pf.1 * (1 / 2) + tb.1)

/-- One pair slot of the `gpu_find_force_sw3_partial` loop body: `none` when
the `if (d12 >= sw3.rc[type1][type2]) continue;` guard skips the pair (no
store, no energy contribution), otherwise the computed contribution. -/
def sw_pair_eval (expQ : ℚ → ℚ) (sqrtQ : ℚ → ℚ) (mic : ℚ → ℚ → ℚ → ℚ × ℚ × ℚ)
    (para : SW2_Para) (inp : SWAtomInput) (n1 i1 : ℕ) : Option (ℚ × ℚ × ℚ × ℚ) :=
  if para.rc (inp.typ n1 - inp.shift) (inp.typ (sw_pair_n2 inp n1 i1) - inp.shift) ≤
      sw_dist mic sqrtQ inp n1 (sw_pair_n2 inp n1 i1)
  then none
  else some (sw_pair_value expQ sqrtQ mic para inp n1 i1)

/-- The `f12x` output of the `gpu_find_force_sw3_partial` launch: thread
`n1 ∈ [N1, N2)` stores `g_f12x[i1 * N + n1]` for every in-cutoff neighbor
slot `i1 < NN[n1]` (skipped slots keep the old buffer contents).  The
written flat indices are decoded by `idx % N` / `idx / N` (`n1 < N` for
threads in range). -/
def gpu_sw3_f12x (expQ : ℚ → ℚ) (sqrtQ : ℚ → ℚ) (mic : ℚ → ℚ → ℚ → ℚ × ℚ × ℚ)
    (para : SW2_Para) (inp : SWAtomInput) (old : ℕ → ℚ) : ℕ → ℚ :=
  fun idx =>
    if inp.N1 ≤ idx % inp.N ∧ idx % inp.N < inp.N2 ∧ idx / inp.N < inp.NN (idx % inp.N) then
      match sw_pair_eval expQ sqrtQ mic para inp (idx % inp.N) (idx / inp.N) with
      | some v => v.1
      | none => old idx
    else old idx

/-- The `f12y` output of `gpu_find_force_sw3_partial` (see `gpu_sw3_f12x`). -/
def gpu_sw3_f12y (expQ : ℚ → ℚ) (sqrtQ : ℚ → ℚ) (mic : ℚ → ℚ → ℚ → ℚ × ℚ × ℚ)
    (para : SW2_Para) (inp : SWAtomInput) (old : ℕ → ℚ) : ℕ → ℚ :=
  fun idx =>
    if inp.N1 ≤ idx % inp.N ∧ idx % inp.N < inp.N2 ∧ idx / inp.N < inp.NN (idx % inp.N) then
      match sw_pair_eval expQ sqrtQ mic para inp (idx % inp.N) (idx / inp.N) with
      | some v => v.2.1
      | none => old idx
    else old idx

/-- The `f12z` output of `gpu_find_force_sw3_partial` (see `gpu_sw3_f12x`). -/
def gpu_sw3_f12z (expQ : ℚ → ℚ) (sqrtQ : ℚ → ℚ) (mic : ℚ → ℚ → ℚ → ℚ × ℚ × ℚ)
    (para : SW2_Para) (inp : SWAtomInput) (old : ℕ → ℚ) : ℕ → ℚ :=
  fun idx =>
    if inp.N1 ≤ idx % inp.N ∧ idx % inp.N < inp.N2 ∧ idx / inp.N < inp.NN (idx % inp.N) then
      match sw_pair_eval expQ sqrtQ mic para inp (idx % inp.N) (idx / inp.N) with
      | some v => v.2.2.1
      | none => old idx
    else old idx

/-- The `g_potential` output of `gpu_find_force_sw3_partial`: every atom in
range gets the sum of its pair contributions (out-of-cutoff pairs contribute
zero via the `continue`). -/
def gpu_sw3_potential (expQ : ℚ → ℚ) (sqrtQ : ℚ → ℚ) (mic : ℚ → ℚ → ℚ → ℚ × ℚ × ℚ)
    (para : SW2_Para) (inp : SWAtomInput) (pe : ℕ → ℚ) : ℕ → ℚ :=
  fun n1 =>
    if inp.N1 ≤ n1 ∧ n1 < inp.N2 then
      ∑ i1 in Finset.range (inp.NN n1),
        (match sw_pair_eval expQ sqrtQ mic para inp n1 i1 with
         | some v => v.2.2.2
         | none => 0)
    else pe n1

/-- The `gpu_set_f12_to_zero` kernel: thread `n1 ∈ [N1, N2)` zeroes
`g_f12[i1 * N + n1]` for `i1 < g_NN[n1]` (that is, only up to the atom's
CURRENT neighbor count); all other indices keep their contents. -/
def gpu_set_f12_to_zero (N N1 N2 : ℕ) (NN : ℕ → ℕ) (f : ℕ → ℚ) : ℕ → ℚ :=
  fun idx =>
    if N1 ≤ idx % N ∧ idx % N < N2 ∧ idx / N < NN (idx % N) then 0 else f idx

/-- Base table contents standing for the uninitialized `sw2_para` member. -/
def swBasePara : SW2_Para :=
  { A := fun _ _ => 0, B := fun _ _ => 0, a := fun _ _ => 0, sigma := fun _ _ => 0
    gamma := fun _ _ => 0, rc := fun _ _ => 0
    lambda := fun _ _ _ => 0, cos0 := fun _ _ _ => 0 }

/-- A three-element SW instance built from a parameter file whose 2-body row
for pair (0,1) differs from the row for pair (1,0). -/
def sw3AsymPara : SW2_Para :=
  init_sw_1985_3 swBasePara (fun n1 n2 => if n1 = 0 ∧ n2 = 1 then 5 else 7)
    (fun _ _ => 1) (fun _ _ => 1) (fun _ _ => 1) (fun _ _ => 1)
    (fun _ _ _ => 1) (fun _ _ _ => 1)

/-- Concrete kernel input where atom 0 has 51 neighbors while the capacity
`sw2_num_of_neighbors 51` is 50 slots. -/
def sw_cex_inp : SWAtomInput :=
  { N := 1, N1 := 0, N2 := 1, NN := fun _ => 51, NL := fun _ => 0
    typ := fun _ => 0, shift := 0, x := fun _ => 0, y := fun _ => 0, z := fun _ => 0 }

/-- Concrete SW parameters with cutoff 2 for every type pair. -/
def sw_cex_para : SW2_Para :=
  { A := fun _ _ => 1, B := fun _ _ => 1, a := fun _ _ => 2, sigma := fun _ _ => 1
    gamma := fun _ _ => 1, rc := fun _ _ => 2
    lambda := fun _ _ _ => 1, cos0 := fun _ _ _ => 0 }

/-- Concrete kernel input whose neighbor counts respect the capacity
`sw2_num_of_neighbors 1`. -/
def sw_cap_inp : SWAtomInput :=
  { N := 1, N1 := 0, N2 := 1, NN := fun _ => 1, NL := fun _ => 0
    typ := fun _ => 0, shift := 0, x := fun _ => 0, y := fun _ => 0, z := fun _ => 0 }

/-! ### Modal analysis engine, GKMA / HNEMA (modal_analysis.cu)  -/

/-- The two operating methods of `MODAL_ANALYSIS`. -/
inductive MAMethod
  | gkma
  | hnema
  deriving DecidableEq

/-- Per-step read-only inputs of the modal kernels: the nine per-atom virial
slices passed for `sxx..szz` (indexed by the global atom index), the masses,
and the flat eigenvector table `eig`. -/
structure ModalInput where
  sxx : ℕ → ℚ
  sxy : ℕ → ℚ
  sxz : ℕ → ℚ
  syx : ℕ → ℚ
  syy : ℕ → ℚ
  syz : ℕ → ℚ
  szx : ℕ → ℚ
  szy : ℕ → ℚ
  szz : ℕ → ℚ
  mass : ℕ → ℚ
  eig : ℕ → ℚ

/-- The `gpu_calc_xdotn` kernel: entry
`xdotn[neig + (nm + axis*num_modes)*num_participating]` is
`sqrt(mass[nglobal]) * eig[neig + (axis + nm*3)*num_participating] *
v_axis[nglobal]` with `nglobal = neig + N1`; the flat index is decoded by
`% / `.  The whole array is (re)written before each read, so it is modelled
as a value function. -/
def gpu_calc_xdotn (sqrtQ : ℚ → ℚ) (np N1 num_modes : ℕ)
    (vx vy vz mass eig : ℕ → ℚ) : ℕ → ℚ :=
  fun idx =>
    let neig := idx % np
    let nm := (idx / np) % num_modes
    let axis := (idx / np) / num_modes
    let nglobal := neig + N1
    sqrtQ (mass nglobal) * eig (neig + (axis + nm * 3) * np) *
      (match axis with
       | 0 => vx nglobal
       | 1 => vy nglobal
       | _ => vz nglobal)

/-- The `gpu_reduce_xdotn` kernel: output entry `j` (with
`j = bid + axis*num_modes`) is the atom sum of `xdotn[n + j*np]`. -/
def gpu_reduce_xdotn (np : ℕ) (xdotn : ℕ → ℚ) : ℕ → ℚ :=
  fun j => ∑ n in Finset.range np, xdotn (n + j * np)

/-- The value `gpu_set_jmn` / `gpu_accumulate_jmn` compute for the
`(neig, nm)` thread at heat component `k` (0 = x-in, 1 = x-out, 2 = y-in,
3 = y-out, 4 = z-all); `rsqrtQ` stands for the `rsqrt` of the math
library. -/
def gpu_jmn_value (rsqrtQ : ℚ → ℚ) (np N1 num_modes : ℕ) (inp : ModalInput)
    (xdot : ℕ → ℚ) (neig nm k : ℕ) : ℚ :=
  let nglobal := neig + N1
  let vx_ma := rsqrtQ (inp.mass nglobal) * inp.eig (neig + nm * 3 * np) * xdot nm
  let vy_ma := rsqrtQ (inp.mass nglobal) * inp.eig (neig + (1 + nm * 3) * np) *
    xdot (nm + num_modes)
  let vz_ma := rsqrtQ (inp.mass nglobal) * inp.eig (neig + (2 + nm * 3) * np) *
    xdot (nm + 2 * num_modes)
  match k with
  | 0 => inp.sxx nglobal * vx_ma + inp.sxy nglobal * vy_ma
  | 1 => inp.sxz nglobal * vz_ma
  | 2 => inp.syx nglobal * vx_ma + inp.syy nglobal * vy_ma
  | 3 => inp.syz nglobal * vz_ma
  | _ => inp.szx nglobal * vx_ma + inp.szy nglobal * vy_ma + inp.szz nglobal * vz_ma

/-- The `gpu_set_jmn` kernel (GKMA): every entry
`jmn[neig + (nm + k*num_modes)*num_participating]` with `neig < np`,
`nm < num_modes`, `k < 5` — that is, every flat index below
`num_modes * 5 * np` — is OVERWRITTEN with the computed value; nothing else
is touched. -/
def gpu_set_jmn (rsqrtQ : ℚ → ℚ) (np N1 num_modes : ℕ) (inp : ModalInput)
    (xdot : ℕ → ℚ) (jmn : ℕ → ℚ) : ℕ → ℚ :=
  fun idx =>
    if idx < num_modes * 5 * np then
      gpu_jmn_value rsqrtQ np N1 num_modes inp xdot
        (idx % np) ((idx / np) % num_modes) ((idx / np) / num_modes)
    else jmn idx

/-- The `gpu_accumulate_jmn` kernel (HNEMA): identical to `gpu_set_jmn` but
every written entry is ADDED into (`+=`). -/
def gpu_accumulate_jmn (rsqrtQ : ℚ → ℚ) (np N1 num_modes : ℕ) (inp : ModalInput)
    (xdot : ℕ → ℚ) (jmn : ℕ → ℚ) : ℕ → ℚ :=
  fun idx =>
    if idx < num_modes * 5 * np then
      jmn idx + gpu_jmn_value rsqrtQ np N1 num_modes inp xdot
        (idx % np) ((idx / np) % num_modes) ((idx / np) / num_modes)
    else jmn idx

/-- The `gpu_reduce_jmn` kernel: `jm[bid + c*num_modes]` is the atom sum of
`jmn[n + (bid + c*num_modes)*np]`; uniformly, entry `j` sums
`jmn[n + j*np]`. -/
def gpu_reduce_jmn (np : ℕ) (jmn : ℕ → ℚ) : ℕ → ℚ :=
  fun j => ∑ n in Finset.range np, jmn (n + j * np)

/-- The `gpu_scale_jm` kernel: entries below `num_elements` are multiplied by
`factor`. -/
def gpu_scale_jm (num_elements : ℕ) (factor : ℚ) (jm : ℕ → ℚ) : ℕ → ℚ :=
  fun j => if j < num_elements then jm j * factor else jm j

/-- The `gpu_reset_data` kernel: entries below `num_elements` are set to
zero. -/
def gpu_reset_data (num_elements : ℕ) (data : ℕ → ℚ) : ℕ → ℚ :=
  fun idx => if idx < num_elements then 0 else data idx

/-- `num_bins = num_modes/bin_size` of `MODAL_ANALYSIS::preprocess` for
mode-index binning (`f_flag == 0`); C `int` division truncates toward
zero. -/
def modal_num_bins_index (num_modes bin_size : ℕ) : ℕ :=
  num_modes / bin_size

/-- The `gpu_bin_modes` kernel (via `gpu_bin_reduce` with
`shift = bid * bin_size`): output bin `bid`, heat component `c`, sums
`jm[n + shift + c*num_modes]` over `n < bin_size`. -/
def gpu_bin_modes_val (num_modes bin_size : ℕ) (jm : ℕ → ℚ) (bid c : ℕ) : ℚ :=
  ∑ n in Finset.range bin_size, jm (n + bid * bin_size + c * num_modes)

/-- The `gpu_bin_frequencies` kernel (via `gpu_bin_reduce` with
`bin_size = bin_count[bid]`, `shift = bin_sum[bid]`). -/
def gpu_bin_frequencies_val (num_modes : ℕ) (bin_count bin_sum : ℕ → ℕ)
    (jm : ℕ → ℚ) (bid c : ℕ) : ℚ :=
  ∑ n in Finset.range (bin_count bid), jm (n + bin_sum bid + c * num_modes)

/-- `fmin = floor(abs(f[0])/f_bin_size)*f_bin_size` of the frequency-binning
setup in `MODAL_ANALYSIS::preprocess`. -/
def freqFmin (w f0 : ℚ) : ℚ :=
  ((⌊|f0| / w⌋ : ℤ) : ℚ) * w

/-- `fmax = (floor(abs(f[num_modes-1])/f_bin_size)+1)*f_bin_size`. -/
def freqFmax (w flast : ℚ) : ℚ :=
  (((⌊|flast| / w⌋ : ℤ) + 1 : ℤ) : ℚ) * w

/-- `shift = floor(abs(fmin)/f_bin_size)`. -/
def freqShift (w f0 : ℚ) : ℤ :=
  ⌊|freqFmin w f0| / w⌋

/-- `num_bins = floor((fmax-fmin)/f_bin_size)` (an `int` in the source; kept
as ℤ because it can be negative). -/
def freqNumBins (w f0 flast : ℚ) : ℤ :=
  ⌊(freqFmax w flast - freqFmin w f0) / w⌋

/-- The bin index `int(abs(f[i]/f_bin_size)) - shift` that
`bin_count[...]++` targets for mode `i` (the C cast truncates toward zero;
the argument of the cast is nonnegative, so it is the floor). -/
def freqBinIndex (w f0 fi : ℚ) : ℤ :=
  ⌊|fi / w|⌋ - freqShift w f0

/-- `bin_count[b]`: how many of the `num_modes` modes target bin `b` (the
source increments `bin_count` once per mode at that mode's bin index). -/
def freqBinCount (w f0 : ℚ) (f : ℕ → ℚ) (num_modes : ℕ) (b : ℤ) : ℕ :=
  ((Finset.range num_modes).filter (fun i => freqBinIndex w f0 (f i) = b)).card

/-- `bin_sum[b]`: the prefix sum `bin_sum[b] = bin_sum[b-1] +
bin_count[b-1]`, `bin_sum[0] = 0`. -/
def freqBinSum (w f0 : ℚ) (f : ℕ → ℚ) (num_modes : ℕ) (b : ℕ) : ℕ :=
  ∑ x in Finset.range b, freqBinCount w f0 f num_modes (x : ℤ)

/-- `MODAL_ANALYSIS::process(step, atom, integrate, fe)`: gated by the
sample interval; runs `compute_heat` (xdot projection, then `gpu_set_jmn`
for GKMA / `gpu_accumulate_jmn` for HNEMA); for HNEMA returns before output
unless `(step+1) % output_interval == 0`; at an output event reduces `jmn`
into `jm`, for HNEMA scales by
`KAPPA_UNIT_CONVERSION/(volume*temperature*fe*samples_per_output)`, bins by
frequency or by mode index, emits the bins (the appended file lines), and
for HNEMA finally resets all `num_heat_stored*num_participating` entries of
`jmn` to zero. -/
def modal_process (method : MAMethod) (sample_interval output_interval : ℕ)
    (samples_per_output : ℕ) (f_flag : Bool) (num_modes bin_size : ℕ)
    (bin_count bin_sum : ℕ → ℕ) (kappa_unit volume temperature fe : ℚ)
    (rsqrtQ sqrtQ : ℚ → ℚ) (np N1 : ℕ) (step : ℕ) (vx vy vz : ℕ → ℚ)
    (inp : ModalInput) (jmn : ℕ → ℚ) : (ℕ → ℚ) × Option (ℕ → ℕ → ℚ) :=
  if ¬((step + 1) % sample_interval = 0) then (jmn, none)
  else
    let xdot := gpu_reduce_xdotn np
      (gpu_calc_xdotn sqrtQ np N1 num_modes vx vy vz inp.mass inp.eig)
    let jmn1 := match method with
      | .gkma => gpu_set_jmn rsqrtQ np N1 num_modes inp xdot jmn
      | .hnema => gpu_accumulate_jmn rsqrtQ np N1 num_modes inp xdot jmn
    if method = .hnema ∧ ¬((step + 1) % output_interval = 0) then (jmn1, none)
    else
      let jm := gpu_reduce_jmn np jmn1
      let jm2 := if method = .hnema then
          gpu_scale_jm (num_modes * 5)
            (kappa_unit / (volume * temperature * fe * (samples_per_output : ℚ))) jm
        else jm
      let bins := if f_flag then gpu_bin_frequencies_val num_modes bin_count bin_sum jm2
        else gpu_bin_modes_val num_modes bin_size jm2
      let jmn2 := if method = .hnema then gpu_reset_data (num_modes * 5 * np) jmn1 else jmn1
      (jmn2, some bins)

/-- A concrete modal-analysis input used to evaluate the engine on explicit
values. -/
def c2inp : ModalInput :=
  { sxx := fun _ => 1, sxy := fun _ => 1, sxz := fun _ => 1
    syx := fun _ => 1, syy := fun _ => 1, syz := fun _ => 1
    szx := fun _ => 1, szy := fun _ => 1, szz := fun _ => 1
    mass := fun _ => 1, eig := fun _ => 1 }

/-- The concrete mode-frequency list `-10, 1, 1, ...` (ascending, negative
first frequency). -/
def c8f : ℕ → ℚ :=
  fun i => if i = 0 then -10 else 1

/-- The concrete mode-frequency list `0, 1, 2, ...` (ascending,
non-negative). -/
def c8g : ℕ → ℚ :=
  fun i => (i : ℚ)

/-! ### Theorems  -/

/-- C5 counterexample: with `compute_dos = compute_sdc = 0`, `VAC::preprocess`
returns early without raising the input error, refuting "requesting neither
triggers the failure". -/
theorem vacPreprocessCheck_both_false_no_error :
    vacPreprocessCheck false false = VacPreOutcome.earlyReturn ∧
    (false == false) = true ∧
    vacPreprocessCheck false false ≠ VacPreOutcome.inputError := by
  decide

/-- C5 (amended): the fatal configuration error of `VAC::preprocess` fires if
and only if both DOS and SDC are requested; when neither is requested the
function returns early without error. -/
theorem vacPreprocessCheck_error_iff :
    ∀ compute_dos compute_sdc : Bool,
      (vacPreprocessCheck compute_dos compute_sdc = VacPreOutcome.inputError ↔
        compute_dos = true ∧ compute_sdc = true) ∧
      vacPreprocessCheck false false = VacPreOutcome.earlyReturn := by
  decide

/-- C6: after the SDC normalization of `VAC::postprocess` divides each lag by
`N * num_time_origins`, the `integrate_vac` output is exactly the trapezoidal
integral of the normalized VAC: the lag-0 value is zero, each subsequent lag
adds `(vac[nc-1] + vac[nc]) * dt/2`, and lag `nc` equals the closed-form
trapezoidal sum. -/
theorem sdc_is_trapezoidal_integral (dt : ℚ) (N T : ℕ) (vac : ℕ → ℚ) :
    integrate_vac dt (vacNormalizeSdc N T vac) 0 = 0 ∧
    (∀ nc : ℕ,
      integrate_vac dt (vacNormalizeSdc N T vac) (nc + 1) =
        integrate_vac dt (vacNormalizeSdc N T vac) nc +
          (vacNormalizeSdc N T vac nc + vacNormalizeSdc N T vac (nc + 1)) * (dt * (1 / 2))) ∧
    (∀ nc : ℕ,
      integrate_vac dt (vacNormalizeSdc N T vac) nc =
        ∑ k in Finset.range nc,
          (vacNormalizeSdc N T vac k + vacNormalizeSdc N T vac (k + 1)) * (dt * (1 / 2))) := by
  refine ⟨rfl, fun nc => rfl, fun nc => ?_⟩
  induction nc with
  | zero => simp [integrate_vac]
  | succ n ih => rw [integrate_vac, ih, Finset.sum_range_succ]

theorem bufWrite_read (N offset : ℕ) (vin buf : ℕ → ℚ) (n : ℕ) (hn : n < N) :
    bufWrite N offset vin buf (offset + n) = vin n := by
  unfold bufWrite
  rw [if_pos ⟨Nat.le_add_right _ _, by omega⟩]
  congr 1
  omega

theorem bufWrite_untouched (N offset : ℕ) (vin buf : ℕ → ℚ) (idx : ℕ)
    (h : idx < offset ∨ offset + N ≤ idx) :
    bufWrite N offset vin buf idx = buf idx := by
  unfold bufWrite
  rw [if_neg]
  omega

theorem vacTarget_inj (Nc cs b1 b2 : ℕ) (_hcs : cs < Nc) (h1 : b1 < Nc) (h2 : b2 < Nc)
    (h : vacTarget Nc cs b1 = vacTarget Nc cs b2) : b1 = b2 := by
  unfold vacTarget at h
  split_ifs at h <;> omega

theorem vacTarget_eq_mod (Nc cs b : ℕ) (hcs : cs < Nc) (hb : b < Nc) :
    vacTarget Nc cs b = (cs + Nc - b) % Nc := by
  unfold vacTarget
  split_ifs with h
  · have h1 : cs + Nc - b = (cs - b) + Nc := by omega
    rw [h1, Nat.add_mod_right, Nat.mod_eq_of_lt (by omega)]
  · rw [Nat.mod_eq_of_lt (by omega)]

theorem gpu_find_vac_at_target (N Nc cs : ℕ) (dos : Bool) (mass vcur vall vac : ℕ → ℚ)
    (b : ℕ) (hcs : cs < Nc) (hb : b < Nc) :
    gpu_find_vac N Nc cs dos mass vcur vall vac (vacTarget Nc cs b) =
      vac (vacTarget Nc cs b) + vacBlockSum N dos mass vcur vall (b * N) := by
  unfold gpu_find_vac
  congr 1
  rw [Finset.sum_eq_single_of_mem b (Finset.mem_range.mpr hb)]
  · rw [if_pos rfl]
  · intro bid hbid hne
    rw [if_neg]
    intro hEq
    exact hne (vacTarget_inj Nc cs bid b hcs (Finset.mem_range.mp hbid) hb hEq)

theorem vacBlockSum_congr_cur (N : ℕ) (dos : Bool) (mass : ℕ → ℚ) (vcur1 vcur2 vall : ℕ → ℚ)
    (s0 : ℕ) (h : ∀ n < N, vcur1 n = vcur2 n) :
    vacBlockSum N dos mass vcur1 vall s0 = vacBlockSum N dos mass vcur2 vall s0 := by
  unfold vacBlockSum
  refine Finset.sum_congr rfl fun n hn => ?_
  rw [h n (Finset.mem_range.mp hn)]

theorem VAC_process_eq_of_ready (cfg : VacConfig) (step : ℕ) (avx avy avz : ℕ → ℚ)
    (st : VacState)
    (hflags : (cfg.compute_dos || cfg.compute_sdc) = true)
    (hstep : (step + 1) % cfg.sample_interval = 0)
    (hready : cfg.Nc - 1 ≤ step / cfg.sample_interval) :
    VAC_process cfg step avx avy avz st =
      { vx := bufWrite cfg.N ((step / cfg.sample_interval % cfg.Nc) * cfg.N)
          (vacSelect cfg avx) st.vx
        vy := bufWrite cfg.N ((step / cfg.sample_interval % cfg.Nc) * cfg.N)
          (vacSelect cfg avy) st.vy
        vz := bufWrite cfg.N ((step / cfg.sample_interval % cfg.Nc) * cfg.N)
          (vacSelect cfg avz) st.vz
        vac_x := gpu_find_vac cfg.N cfg.Nc (step / cfg.sample_interval % cfg.Nc)
          cfg.compute_dos cfg.mass
          (fun n => bufWrite cfg.N ((step / cfg.sample_interval % cfg.Nc) * cfg.N)
            (vacSelect cfg avx) st.vx ((step / cfg.sample_interval % cfg.Nc) * cfg.N + n))
          (bufWrite cfg.N ((step / cfg.sample_interval % cfg.Nc) * cfg.N)
            (vacSelect cfg avx) st.vx) st.vac_x
        vac_y := gpu_find_vac cfg.N cfg.Nc (step / cfg.sample_interval % cfg.Nc)
          cfg.compute_dos cfg.mass
          (fun n => bufWrite cfg.N ((step / cfg.sample_interval % cfg.Nc) * cfg.N)
            (vacSelect cfg avy) st.vy ((step / cfg.sample_interval % cfg.Nc) * cfg.N + n))
          (bufWrite cfg.N ((step / cfg.sample_interval % cfg.Nc) * cfg.N)
            (vacSelect cfg avy) st.vy) st.vac_y
        vac_z := gpu_find_vac cfg.N cfg.Nc (step / cfg.sample_interval % cfg.Nc)
          cfg.compute_dos cfg.mass
          (fun n => bufWrite cfg.N ((step / cfg.sample_interval % cfg.Nc) * cfg.N)
            (vacSelect cfg avz) st.vz ((step / cfg.sample_interval % cfg.Nc) * cfg.N + n))
          (bufWrite cfg.N ((step / cfg.sample_interval % cfg.Nc) * cfg.N)
            (vacSelect cfg avz) st.vz) st.vac_z
        num_time_origins := st.num_time_origins + 1 } := by
  simp [VAC_process, hflags, hstep, hready]

theorem VAC_process_eq_of_warmup (cfg : VacConfig) (step : ℕ) (avx avy avz : ℕ → ℚ)
    (st : VacState)
    (hflags : (cfg.compute_dos || cfg.compute_sdc) = true)
    (hstep : (step + 1) % cfg.sample_interval = 0)
    (hwarm : ¬(cfg.Nc - 1 ≤ step / cfg.sample_interval)) :
    VAC_process cfg step avx avy avz st =
      { st with
        vx := bufWrite cfg.N ((step / cfg.sample_interval % cfg.Nc) * cfg.N)
          (vacSelect cfg avx) st.vx
        vy := bufWrite cfg.N ((step / cfg.sample_interval % cfg.Nc) * cfg.N)
          (vacSelect cfg avy) st.vy
        vz := bufWrite cfg.N ((step / cfg.sample_interval % cfg.Nc) * cfg.N)
          (vacSelect cfg avz) st.vz } := by
  simp [VAC_process, hflags, hstep, hwarm]

/-- C1: on a sampled step (`(step+1) % sample_interval == 0`, writing
`s = step / sample_interval`, `cs = s % Nc`), `VAC::process` (1) writes the
group-selected current velocities into circular-buffer slot `cs` (entries
`cs*N .. cs*N+N-1`), leaving all other slots unchanged; (2) during warm-up
(`s < Nc-1`) it leaves the VAC accumulators and the time-origin count
unchanged; (3) once `s >= Nc-1` it increments `num_time_origins` by exactly
one and, for every buffer slot `b < Nc`, adds the atom-summed product
`mass * v(b) * v(current)` into lag bin `(cs + Nc - b) % Nc`; in particular
(4) the lag-0 bin receives the current snapshot correlated with itself. -/
theorem vac_process_slot_and_lag_bins (cfg : VacConfig) (step : ℕ)
    (avx avy avz : ℕ → ℚ) (st : VacState)
    (hflags : (cfg.compute_dos || cfg.compute_sdc) = true)
    (hNc : 0 < cfg.Nc)
    (hstep : (step + 1) % cfg.sample_interval = 0) :
    (∀ n < cfg.N,
      (VAC_process cfg step avx avy avz st).vx
          ((step / cfg.sample_interval % cfg.Nc) * cfg.N + n) = vacSelect cfg avx n ∧
      (VAC_process cfg step avx avy avz st).vy
          ((step / cfg.sample_interval % cfg.Nc) * cfg.N + n) = vacSelect cfg avy n ∧
      (VAC_process cfg step avx avy avz st).vz
          ((step / cfg.sample_interval % cfg.Nc) * cfg.N + n) = vacSelect cfg avz n) ∧
    (∀ idx : ℕ,
      idx < (step / cfg.sample_interval % cfg.Nc) * cfg.N ∨
        (step / cfg.sample_interval % cfg.Nc) * cfg.N + cfg.N ≤ idx →
      (VAC_process cfg step avx avy avz st).vx idx = st.vx idx ∧
      (VAC_process cfg step avx avy avz st).vy idx = st.vy idx ∧
      (VAC_process cfg step avx avy avz st).vz idx = st.vz idx) ∧
    (step / cfg.sample_interval + 1 < cfg.Nc →
      (VAC_process cfg step avx avy avz st).vac_x = st.vac_x ∧
      (VAC_process cfg step avx avy avz st).vac_y = st.vac_y ∧
      (VAC_process cfg step avx avy avz st).vac_z = st.vac_z ∧
      (VAC_process cfg step avx avy avz st).num_time_origins = st.num_time_origins) ∧
    (cfg.Nc ≤ step / cfg.sample_interval + 1 →
      (VAC_process cfg step avx avy avz st).num_time_origins = st.num_time_origins + 1 ∧
      ∀ b < cfg.Nc,
        (VAC_process cfg step avx avy avz st).vac_x
            ((step / cfg.sample_interval % cfg.Nc + cfg.Nc - b) % cfg.Nc) =
          st.vac_x ((step / cfg.sample_interval % cfg.Nc + cfg.Nc - b) % cfg.Nc) +
            vacBlockSum cfg.N cfg.compute_dos cfg.mass (vacSelect cfg avx)
              (bufWrite cfg.N ((step / cfg.sample_interval % cfg.Nc) * cfg.N)
                (vacSelect cfg avx) st.vx) (b * cfg.N) ∧
        (VAC_process cfg step avx avy avz st).vac_y
            ((step / cfg.sample_interval % cfg.Nc + cfg.Nc - b) % cfg.Nc) =
          st.vac_y ((step / cfg.sample_interval % cfg.Nc + cfg.Nc - b) % cfg.Nc) +
            vacBlockSum cfg.N cfg.compute_dos cfg.mass (vacSelect cfg avy)
              (bufWrite cfg.N ((step / cfg.sample_interval % cfg.Nc) * cfg.N)
                (vacSelect cfg avy) st.vy) (b * cfg.N) ∧
        (VAC_process cfg step avx avy avz st).vac_z
            ((step / cfg.sample_interval % cfg.Nc + cfg.Nc - b) % cfg.Nc) =
          st.vac_z ((step / cfg.sample_interval % cfg.Nc + cfg.Nc - b) % cfg.Nc) +
            vacBlockSum cfg.N cfg.compute_dos cfg.mass (vacSelect cfg avz)
              (bufWrite cfg.N ((step / cfg.sample_interval % cfg.Nc) * cfg.N)
                (vacSelect cfg avz) st.vz) (b * cfg.N)) ∧
    (cfg.Nc ≤ step / cfg.sample_interval + 1 →
      (VAC_process cfg step avx avy avz st).vac_x 0 =
        st.vac_x 0 + ∑ n in Finset.range cfg.N,
          (if cfg.compute_dos then cfg.mass n else 1) *
            vacSelect cfg avx n * vacSelect cfg avx n ∧
      (VAC_process cfg step avx avy avz st).vac_y 0 =
        st.vac_y 0 + ∑ n in Finset.range cfg.N,
          (if cfg.compute_dos then cfg.mass n else 1) *
            vacSelect cfg avy n * vacSelect cfg avy n ∧
      (VAC_process cfg step avx avy avz st).vac_z 0 =
        st.vac_z 0 + ∑ n in Finset.range cfg.N,
          (if cfg.compute_dos then cfg.mass n else 1) *
            vacSelect cfg avz n * vacSelect cfg avz n) := by
  have hcs : step / cfg.sample_interval % cfg.Nc < cfg.Nc :=
    Nat.mod_lt _ hNc
  by_cases hready : cfg.Nc - 1 ≤ step / cfg.sample_interval
  · rw [VAC_process_eq_of_ready cfg step avx avy avz st hflags hstep hready]
    dsimp only
    refine ⟨?_, ?_, ?_, ?_, ?_⟩
    · intro n hn
      exact ⟨bufWrite_read _ _ _ _ n hn, bufWrite_read _ _ _ _ n hn,
        bufWrite_read _ _ _ _ n hn⟩
    · intro idx hidx
      exact ⟨bufWrite_untouched _ _ _ _ idx hidx, bufWrite_untouched _ _ _ _ idx hidx,
        bufWrite_untouched _ _ _ _ idx hidx⟩
    · intro h
      exact absurd hready (by omega)
    · intro _
      refine ⟨rfl, ?_⟩
      intro b hb
      rw [show (step / cfg.sample_interval % cfg.Nc + cfg.Nc - b) % cfg.Nc =
          vacTarget cfg.Nc (step / cfg.sample_interval % cfg.Nc) b from
        (vacTarget_eq_mod cfg.Nc _ b hcs hb).symm]
      refine ⟨?_, ?_, ?_⟩ <;>
      · rw [gpu_find_vac_at_target _ _ _ _ _ _ _ _ b hcs hb]
        congr 1
        exact vacBlockSum_congr_cur _ _ _ _ _ _ _
          (fun n hn => bufWrite_read _ _ _ _ n hn)
    · intro _
      have h0 : (0 : ℕ) = vacTarget cfg.Nc (step / cfg.sample_interval % cfg.Nc)
          (step / cfg.sample_interval % cfg.Nc) := by
        unfold vacTarget
        simp
      refine ⟨?_, ?_, ?_⟩ <;>
      · rw [h0, gpu_find_vac_at_target _ _ _ _ _ _ _ _ _ hcs hcs]
        congr 1
        unfold vacBlockSum
        refine Finset.sum_congr rfl fun n hn => ?_
        dsimp only
        rw [bufWrite_read _ _ _ _ n (Finset.mem_range.mp hn)]
  · rw [VAC_process_eq_of_warmup cfg step avx avy avz st hflags hstep hready]
    dsimp only
    refine ⟨?_, ?_, ?_, ?_, ?_⟩
    · intro n hn
      exact ⟨bufWrite_read _ _ _ _ n hn, bufWrite_read _ _ _ _ n hn,
        bufWrite_read _ _ _ _ n hn⟩
    · intro idx hidx
      exact ⟨bufWrite_untouched _ _ _ _ idx hidx, bufWrite_untouched _ _ _ _ idx hidx,
        bufWrite_untouched _ _ _ _ idx hidx⟩
    · intro _
      exact ⟨rfl, rfl, rfl, rfl⟩
    · intro hge
      exact absurd hge (by omega)
    · intro hge
      exact absurd hge (by omega)

/-- Witness for C1: the hypotheses hold at a concrete configuration and the
lag-0 bin of the x-accumulator receives the self-correlation of the current
snapshot there. -/
theorem vac_process_slot_and_lag_bins_witness :
    (c1cfg.compute_dos || c1cfg.compute_sdc) = true ∧ 0 < c1cfg.Nc ∧
    (1 + 1) % c1cfg.sample_interval = 0 ∧
    (VAC_process c1cfg 1 (fun _ => 3) (fun _ => 4) (fun _ => 5) c1st).vac_x 0 =
      c1st.vac_x 0 + ∑ n in Finset.range c1cfg.N,
        (if c1cfg.compute_dos then c1cfg.mass n else 1) *
          vacSelect c1cfg (fun _ => 3) n * vacSelect c1cfg (fun _ => 3) n :=
  ⟨by decide, by decide, by decide,
    ((vac_process_slot_and_lag_bins c1cfg 1 (fun _ => 3) (fun _ => 4) (fun _ => 5) c1st
      (by decide) (by decide) (by decide)).2.2.2.2 (by decide)).1⟩

/-- C3: (a) a pair slot of `gpu_find_force_sw3_partial` is evaluated (stored
and accumulated) if and only if its minimum-image distance is strictly below
the type-pair cutoff `rc[type1][type2]`; (b) the two-body energy computed by
`find_p2_and_f2` equals `A * exp(1/(d12/sigma - a)) * (B * (sigma/d12)^4 - 1)`
with `A` the table entry; (c) the single-species constructor fixes
`A[0][0] = epsilon * A` and `rc[0][0] = sigma * a`; (d) for an in-cutoff
pair the accumulated pair energy is `p2 * HALF` plus the three-body terms. -/
theorem sw_two_body_gate_and_energy :
    (∀ (expQ sqrtQ : ℚ → ℚ) (mic : ℚ → ℚ → ℚ → ℚ × ℚ × ℚ) (para : SW2_Para)
        (inp : SWAtomInput) (n1 i1 : ℕ),
      (sw_pair_eval expQ sqrtQ mic para inp n1 i1).isSome = true ↔
        sw_dist mic sqrtQ inp n1 (sw_pair_n2 inp n1 i1) <
          para.rc (inp.typ n1 - inp.shift) (inp.typ (sw_pair_n2 inp n1 i1) - inp.shift)) ∧
    (∀ (expQ : ℚ → ℚ) (sigma a B A d12 : ℚ),
      (find_p2_and_f2 expQ sigma a B A d12).1 =
        A * expQ (1 / (d12 / sigma - a)) * (B * (sigma / d12) ^ 4 - 1)) ∧
    (∀ (base : SW2_Para) (epsilon lambda0 A0 B0 a0 gamma0 sigma0 cos00 : ℚ),
      (init_sw_1985_1 base epsilon lambda0 A0 B0 a0 gamma0 sigma0 cos00).A 0 0 =
        epsilon * A0 ∧
      (init_sw_1985_1 base epsilon lambda0 A0 B0 a0 gamma0 sigma0 cos00).rc 0 0 =
        sigma0 * a0) ∧
    (∀ (expQ sqrtQ : ℚ → ℚ) (mic : ℚ → ℚ → ℚ → ℚ × ℚ × ℚ) (para : SW2_Para)
        (inp : SWAtomInput) (n1 i1 : ℕ),
      (sw_pair_value expQ sqrtQ mic para inp n1 i1).2.2.2 =
        (find_p2_and_f2 expQ
            (para.sigma (inp.typ n1 - inp.shift) (inp.typ (sw_pair_n2 inp n1 i1) - inp.shift))
            (para.a (inp.typ n1 - inp.shift) (inp.typ (sw_pair_n2 inp n1 i1) - inp.shift))
            (para.B (inp.typ n1 - inp.shift) (inp.typ (sw_pair_n2 inp n1 i1) - inp.shift))
            (para.A (inp.typ n1 - inp.shift) (inp.typ (sw_pair_n2 inp n1 i1) - inp.shift))
            (sw_dist mic sqrtQ inp n1 (sw_pair_n2 inp n1 i1))).1 * (1 / 2) +
          (sw_three_body expQ sqrtQ mic para inp n1 (sw_pair_n2 inp n1 i1)
            (inp.typ n1 - inp.shift) (inp.typ (sw_pair_n2 inp n1 i1) - inp.shift)
            (para.gamma (inp.typ n1 - inp.shift) (inp.typ (sw_pair_n2 inp n1 i1) - inp.shift))
            (para.sigma (inp.typ n1 - inp.shift) (inp.typ (sw_pair_n2 inp n1 i1) - inp.shift))
            (para.a (inp.typ n1 - inp.shift) (inp.typ (sw_pair_n2 inp n1 i1) - inp.shift))
            (para.gamma (inp.typ n1 - inp.shift) (inp.typ (sw_pair_n2 inp n1 i1) - inp.shift) /
              (para.sigma (inp.typ n1 - inp.shift) (inp.typ (sw_pair_n2 inp n1 i1) - inp.shift) *
                (sw_dist mic sqrtQ inp n1 (sw_pair_n2 inp n1 i1) /
                  para.sigma (inp.typ n1 - inp.shift)
                    (inp.typ (sw_pair_n2 inp n1 i1) - inp.shift) -
                  para.a (inp.typ n1 - inp.shift) (inp.typ (sw_pair_n2 inp n1 i1) - inp.shift)) *
                (sw_dist mic sqrtQ inp n1 (sw_pair_n2 inp n1 i1) /
                  para.sigma (inp.typ n1 - inp.shift)
                    (inp.typ (sw_pair_n2 inp n1 i1) - inp.shift) -
                  para.a (inp.typ n1 - inp.shift) (inp.typ (sw_pair_n2 inp n1 i1) - inp.shift))))
            (sw_dist mic sqrtQ inp n1 (sw_pair_n2 inp n1 i1))
            (1 / sw_dist mic sqrtQ inp n1 (sw_pair_n2 inp n1 i1))
            (sw_disp mic inp n1 (sw_pair_n2 inp n1 i1)).1
            (sw_disp mic inp n1 (sw_pair_n2 inp n1 i1)).2.1
            (sw_disp mic inp n1 (sw_pair_n2 inp n1 i1)).2.2).1) := by
  refine ⟨?_, ?_, ?_, ?_⟩
  · intro expQ sqrtQ mic para inp n1 i1
    unfold sw_pair_eval
    by_cases h : para.rc (inp.typ n1 - inp.shift) (inp.typ (sw_pair_n2 inp n1 i1) - inp.shift) ≤
        sw_dist mic sqrtQ inp n1 (sw_pair_n2 inp n1 i1)
    · rw [if_pos h]
      simp only [Option.isSome_none, Bool.false_eq_true, false_iff, not_lt]
      exact h
    · rw [if_neg h]
      push_neg at h
      simp only [Option.isSome_some, true_iff]
      exact h
  · intro expQ sigma a B A d12
    simp only [find_p2_and_f2]
    rw [show B / (d12 / sigma * (d12 / sigma) * (d12 / sigma) * (d12 / sigma)) =
        B * (sigma / d12) ^ 4 from by
      rw [div_eq_mul_inv,
        show d12 / sigma * (d12 / sigma) * (d12 / sigma) * (d12 / sigma) =
          (d12 / sigma) ^ 4 from by ring,
        ← inv_pow, inv_div]]
  · intro base epsilon lambda0 A0 B0 a0 gamma0 sigma0 cos00
    exact ⟨rfl, rfl⟩
  · intro expQ sqrtQ mic para inp n1 i1
    rfl

/-- C4 counterexample: with one atom whose current neighbor count is 1 and a
buffer of per-atom capacity `sw2_num_of_neighbors 2 = 2` slots holding the
stale value 1, the reset kernel leaves slot 1 (an allocated slot beyond the
neighbor count) at its stale value instead of zero. -/
theorem set_f12_to_zero_misses_slot :
    gpu_set_f12_to_zero 1 0 1 (fun _ => 1) (fun _ => 1) 1 = 1 ∧
    1 < sw2_num_of_neighbors 2 ∧
    gpu_set_f12_to_zero 1 0 1 (fun _ => 1) (fun _ => 1) 1 ≠ 0 := by
  refine ⟨rfl, by decide, ?_⟩
  intro h
  exact absurd h (by decide)

/-- C4 (amended): immediately after `gpu_set_f12_to_zero`, the partial-force
buffer is exactly zero at every slot strictly below the atom's CURRENT
neighbor count for every atom in the computed range, and every index outside
that written set (including allocated slots at or beyond the current
neighbor count) keeps its previous contents. -/
theorem set_f12_zeroes_counted_slots (N N1 N2 n1 i1 : ℕ) (NN : ℕ → ℕ) (f : ℕ → ℚ)
    (h1 : N1 ≤ n1) (h2 : n1 < N2) (h3 : n1 < N) (h4 : i1 < NN n1) :
    gpu_set_f12_to_zero N N1 N2 NN f (i1 * N + n1) = 0 ∧
    (∀ idx : ℕ, ¬(N1 ≤ idx % N ∧ idx % N < N2 ∧ idx / N < NN (idx % N)) →
      gpu_set_f12_to_zero N N1 N2 NN f idx = f idx) := by
  have hN : 0 < N := Nat.lt_of_le_of_lt (Nat.zero_le n1) h3
  have hmod : (i1 * N + n1) % N = n1 := by
    rw [Nat.add_comm, Nat.add_mul_mod_self_right, Nat.mod_eq_of_lt h3]
  have hdiv : (i1 * N + n1) / N = i1 := by
    rw [Nat.add_comm, Nat.add_mul_div_right _ _ hN, Nat.div_eq_of_lt h3, Nat.zero_add]
  constructor
  · unfold gpu_set_f12_to_zero
    rw [hmod, hdiv, if_pos ⟨h1, h2, h4⟩]
  · intro idx h
    unfold gpu_set_f12_to_zero
    rw [if_neg h]

/-- Witness for C4 (amended) at a concrete configuration. -/
theorem set_f12_zeroes_counted_slots_witness :
    (0 : ℕ) ≤ 0 ∧ (0 : ℕ) < 2 ∧ (0 : ℕ) < 2 ∧ (0 : ℕ) < 1 ∧
    (gpu_set_f12_to_zero 2 0 2 (fun _ => 1) (fun _ => 5) (0 * 2 + 0) = 0 ∧
      (∀ idx : ℕ, ¬(0 ≤ idx % 2 ∧ idx % 2 < 2 ∧ idx / 2 < 1) →
        gpu_set_f12_to_zero 2 0 2 (fun _ => 1) (fun _ => 5) idx = (fun _ => (5 : ℚ)) idx)) :=
  ⟨by decide, by decide, by decide, by decide,
    set_f12_zeroes_counted_slots 2 0 2 0 0 (fun _ => 1) (fun _ => 5)
      (by decide) (by decide) (by decide) (by decide)⟩

/-- C7 counterexample: with one atom reporting 51 neighbors and buffer
capacity `sw2_num_of_neighbors 51 = 50` slots, the kernel STORES a value at
flat index 50 (= slot 50 of atom 0, outside the `N * 50`-entry allocation),
changing it from its prior contents 37 — the excess neighbor slots are not
dropped. -/
theorem sw_partial_force_overflow_write :
    gpu_sw3_f12x (fun _ => 1) (fun _ => 0) (fun a b c => (a, b, c))
      sw_cex_para sw_cex_inp (fun _ => 37) 50 ≠ 37 ∧
    sw_cex_inp.N * sw2_num_of_neighbors 51 ≤ 50 ∧
    sw2_num_of_neighbors 51 < sw_cex_inp.NN 0 := by
  refine ⟨?_, by decide, by decide⟩
  have hval : gpu_sw3_f12x (fun _ => 1) (fun _ => 0) (fun a b c => (a, b, c))
      sw_cex_para sw_cex_inp (fun _ => 37) 50 = 0 := by
    norm_num [gpu_sw3_f12x, sw_cex_inp, sw_cex_para, sw_pair_eval, sw_pair_n2,
      sw_dist, sw_disp, sw_pair_value, sw_three_body, find_p2_and_f2]
  rw [hval]
  norm_num

/-- C7 (amended): the kernel performs a store for EVERY in-cutoff neighbor
slot `i1 < count[n1]` with no capacity check, so (1) under the precondition
`count[n] <= min(MN, 50)` every stored flat index lies strictly inside the
allocated buffer extent `N * min(MN, 50)`, and (2) under that precondition
no index at or beyond the allocated extent is ever modified; the kernel has
no error path. -/
theorem sw_partial_writes_within_capacity (expQ sqrtQ : ℚ → ℚ)
    (mic : ℚ → ℚ → ℚ → ℚ × ℚ × ℚ) (para : SW2_Para) (inp : SWAtomInput)
    (oldx oldy oldz : ℕ → ℚ) (MN : ℕ)
    (hN2 : inp.N2 ≤ inp.N)
    (hcap : ∀ n, inp.NN n ≤ sw2_num_of_neighbors MN) :
    (∀ n1 i1 : ℕ, inp.N1 ≤ n1 → n1 < inp.N2 → i1 < inp.NN n1 →
      i1 * inp.N + n1 < inp.N * sw2_num_of_neighbors MN) ∧
    (∀ idx : ℕ, inp.N * sw2_num_of_neighbors MN ≤ idx →
      gpu_sw3_f12x expQ sqrtQ mic para inp oldx idx = oldx idx ∧
      gpu_sw3_f12y expQ sqrtQ mic para inp oldy idx = oldy idx ∧
      gpu_sw3_f12z expQ sqrtQ mic para inp oldz idx = oldz idx) := by
  constructor
  · intro n1 i1 ha hb hc
    have hn1N : n1 < inp.N := lt_of_lt_of_le hb hN2
    have hcap1 : i1 + 1 ≤ sw2_num_of_neighbors MN := le_trans hc (hcap n1)
    calc i1 * inp.N + n1 < i1 * inp.N + inp.N := by omega
      _ = (i1 + 1) * inp.N := by ring
      _ ≤ sw2_num_of_neighbors MN * inp.N := Nat.mul_le_mul_right _ hcap1
      _ = inp.N * sw2_num_of_neighbors MN := Nat.mul_comm _ _
  · intro idx hidx
    have hng : ¬(inp.N1 ≤ idx % inp.N ∧ idx % inp.N < inp.N2 ∧
        idx / inp.N < inp.NN (idx % inp.N)) := by
      rcases Nat.eq_zero_or_pos inp.N with hN0 | hNpos
      · rintro ⟨-, hh2, -⟩
        omega
      · rintro ⟨-, -, hh3⟩
        have hge : sw2_num_of_neighbors MN ≤ idx / inp.N :=
          (Nat.le_div_iff_mul_le hNpos).mpr (by rw [Nat.mul_comm]; exact hidx)
        exact absurd (lt_of_lt_of_le hh3 (hcap _)) (not_lt.mpr hge)
    refine ⟨?_, ?_, ?_⟩ <;>
    · simp only [gpu_sw3_f12x, gpu_sw3_f12y, gpu_sw3_f12z]
      rw [if_neg hng]

/-- Witness for C7 (amended) at a concrete configuration with one atom, one
neighbor and capacity one. -/
theorem sw_partial_writes_within_capacity_witness :
    sw_cap_inp.N2 ≤ sw_cap_inp.N ∧
    (∀ n, sw_cap_inp.NN n ≤ sw2_num_of_neighbors 1) ∧
    (∀ n1 i1 : ℕ, sw_cap_inp.N1 ≤ n1 → n1 < sw_cap_inp.N2 → i1 < sw_cap_inp.NN n1 →
      i1 * sw_cap_inp.N + n1 < sw_cap_inp.N * sw2_num_of_neighbors 1) :=
  ⟨by decide, fun _ => Nat.le_refl 1,
    (sw_partial_writes_within_capacity (fun _ => 1) (fun _ => 0) (fun a b c => (a, b, c))
      sw_cex_para sw_cap_inp (fun _ => 0) (fun _ => 0) (fun _ => 0) 1
      (by decide) (fun _ => Nat.le_refl 1)).1⟩

/-- C9 counterexample: a successfully constructed three-species SW2 instance
whose parameter file gives different 2-body rows for the ordered pairs (0,1)
and (1,0) has an asymmetric `A` table: the claim fails "regardless of the
values read from the parameter file". -/
theorem sw3_tables_not_symmetric :
    sw3AsymPara.A 0 1 = 5 ∧ sw3AsymPara.A 1 0 = 7 ∧
    sw3AsymPara.A 0 1 ≠ sw3AsymPara.A 1 0 := by
  refine ⟨rfl, rfl, ?_⟩
  intro h
  exact absurd h (by decide)

/-- C9 (amended): the two-body tables of 1- and 2-species SW2 instances are
symmetric under swapping the pair indices for every pair inside the species
count and for all file contents (the 2-species initializer assigns pair
`(n1,n2)` from file row `n1+n2`); for the 3-species initializer each ordered
pair is read independently, so its tables are symmetric exactly when the
file supplies symmetric rows. -/
theorem sw_two_body_tables_symmetric (base : SW2_Para)
    (A2 B2 a2 sigma2 gamma2 : ℕ → ℚ) (lambda2 cos02 : ℕ → ℕ → ℕ → ℚ)
    (A3 B3 a3 sigma3 gamma3 : ℕ → ℕ → ℚ) (lambda3 cos03 : ℕ → ℕ → ℕ → ℚ)
    (i j : ℕ) (hi2 : i < 2) (hj2 : j < 2)
    (hsym : ∀ m n : ℕ, A3 m n = A3 n m ∧ B3 m n = B3 n m ∧ a3 m n = a3 n m ∧
      sigma3 m n = sigma3 n m ∧ gamma3 m n = gamma3 n m) :
    ((init_sw_1985_2 base A2 B2 a2 sigma2 gamma2 lambda2 cos02).A i j =
        (init_sw_1985_2 base A2 B2 a2 sigma2 gamma2 lambda2 cos02).A j i ∧
      (init_sw_1985_2 base A2 B2 a2 sigma2 gamma2 lambda2 cos02).B i j =
        (init_sw_1985_2 base A2 B2 a2 sigma2 gamma2 lambda2 cos02).B j i ∧
      (init_sw_1985_2 base A2 B2 a2 sigma2 gamma2 lambda2 cos02).a i j =
        (init_sw_1985_2 base A2 B2 a2 sigma2 gamma2 lambda2 cos02).a j i ∧
      (init_sw_1985_2 base A2 B2 a2 sigma2 gamma2 lambda2 cos02).sigma i j =
        (init_sw_1985_2 base A2 B2 a2 sigma2 gamma2 lambda2 cos02).sigma j i ∧
      (init_sw_1985_2 base A2 B2 a2 sigma2 gamma2 lambda2 cos02).gamma i j =
        (init_sw_1985_2 base A2 B2 a2 sigma2 gamma2 lambda2 cos02).gamma j i ∧
      (init_sw_1985_2 base A2 B2 a2 sigma2 gamma2 lambda2 cos02).rc i j =
        (init_sw_1985_2 base A2 B2 a2 sigma2 gamma2 lambda2 cos02).rc j i) ∧
    (∀ m n : ℕ, m < 3 → n < 3 →
      (init_sw_1985_3 base A3 B3 a3 sigma3 gamma3 lambda3 cos03).A m n =
        (init_sw_1985_3 base A3 B3 a3 sigma3 gamma3 lambda3 cos03).A n m ∧
      (init_sw_1985_3 base A3 B3 a3 sigma3 gamma3 lambda3 cos03).B m n =
        (init_sw_1985_3 base A3 B3 a3 sigma3 gamma3 lambda3 cos03).B n m ∧
      (init_sw_1985_3 base A3 B3 a3 sigma3 gamma3 lambda3 cos03).a m n =
        (init_sw_1985_3 base A3 B3 a3 sigma3 gamma3 lambda3 cos03).a n m ∧
      (init_sw_1985_3 base A3 B3 a3 sigma3 gamma3 lambda3 cos03).sigma m n =
        (init_sw_1985_3 base A3 B3 a3 sigma3 gamma3 lambda3 cos03).sigma n m ∧
      (init_sw_1985_3 base A3 B3 a3 sigma3 gamma3 lambda3 cos03).gamma m n =
        (init_sw_1985_3 base A3 B3 a3 sigma3 gamma3 lambda3 cos03).gamma n m ∧
      (init_sw_1985_3 base A3 B3 a3 sigma3 gamma3 lambda3 cos03).rc m n =
        (init_sw_1985_3 base A3 B3 a3 sigma3 gamma3 lambda3 cos03).rc n m) := by
  constructor
  · simp only [init_sw_1985_2, if_pos (show i < 2 ∧ j < 2 from ⟨hi2, hj2⟩),
      if_pos (show j < 2 ∧ i < 2 from ⟨hj2, hi2⟩), Nat.add_comm i j]
    refine ⟨?_, ?_, ?_, ?_, ?_, ?_⟩ <;> trivial
  · intro m n hm3 hn3
    simp only [init_sw_1985_3, if_pos (show m < 3 ∧ n < 3 from ⟨hm3, hn3⟩),
      if_pos (show n < 3 ∧ m < 3 from ⟨hn3, hm3⟩)]
    obtain ⟨hA, hB, ha, hs, hg⟩ := hsym m n
    exact ⟨hA, hB, ha, hs, hg, by rw [hs, ha]⟩

/-- Witness for C9 (amended) at concrete indices and symmetric 3-species
rows. -/
theorem sw_two_body_tables_symmetric_witness :
    (0 : ℕ) < 2 ∧ (1 : ℕ) < 2 ∧
    (∀ m n : ℕ, (fun _ _ => (1 : ℚ)) m n = (fun _ _ => (1 : ℚ)) n m ∧
      (fun _ _ => (1 : ℚ)) m n = (fun _ _ => (1 : ℚ)) n m ∧
      (fun _ _ => (1 : ℚ)) m n = (fun _ _ => (1 : ℚ)) n m ∧
      (fun _ _ => (1 : ℚ)) m n = (fun _ _ => (1 : ℚ)) n m ∧
      (fun _ _ => (1 : ℚ)) m n = (fun _ _ => (1 : ℚ)) n m) ∧
    (init_sw_1985_2 swBasePara (fun _ => 2) (fun _ => 2) (fun _ => 2) (fun _ => 2)
        (fun _ => 2) (fun _ _ _ => 2) (fun _ _ _ => 2)).A 0 1 =
      (init_sw_1985_2 swBasePara (fun _ => 2) (fun _ => 2) (fun _ => 2) (fun _ => 2)
        (fun _ => 2) (fun _ _ _ => 2) (fun _ _ _ => 2)).A 1 0 :=
  ⟨by decide, by decide, fun m n => ⟨rfl, rfl, rfl, rfl, rfl⟩,
    ((sw_two_body_tables_symmetric swBasePara (fun _ => 2) (fun _ => 2) (fun _ => 2)
      (fun _ => 2) (fun _ => 2) (fun _ _ _ => 2) (fun _ _ _ => 2)
      (fun _ _ => 1) (fun _ _ => 1) (fun _ _ => 1) (fun _ _ => 1) (fun _ _ => 1)
      (fun _ _ _ => 1) (fun _ _ _ => 1) 0 1 (by decide) (by decide)
      (fun m n => ⟨rfl, rfl, rfl, rfl, rfl⟩)).1).1⟩

theorem jmn_index_decode (np num_modes neig nm k : ℕ)
    (hne : neig < np) (hnm : nm < num_modes) (hk : k < 5) :
    (neig + (nm + k * num_modes) * np) % np = neig ∧
    ((neig + (nm + k * num_modes) * np) / np) % num_modes = nm ∧
    ((neig + (nm + k * num_modes) * np) / np) / num_modes = k ∧
    neig + (nm + k * num_modes) * np < num_modes * 5 * np := by
  have hnp : 0 < np := Nat.lt_of_le_of_lt (Nat.zero_le _) hne
  have hnmpos : 0 < num_modes := Nat.lt_of_le_of_lt (Nat.zero_le _) hnm
  have hdiv : (neig + (nm + k * num_modes) * np) / np = nm + k * num_modes := by
    rw [Nat.add_mul_div_right _ _ hnp, Nat.div_eq_of_lt hne, Nat.zero_add]
  refine ⟨?_, ?_, ?_, ?_⟩
  · rw [Nat.add_mul_mod_self_right, Nat.mod_eq_of_lt hne]
  · rw [hdiv, Nat.add_mul_mod_self_right, Nat.mod_eq_of_lt hnm]
  · rw [hdiv, Nat.add_mul_div_right _ _ hnmpos, Nat.div_eq_of_lt hnm, Nat.zero_add]
  · have hkm : k * num_modes ≤ 4 * num_modes := Nat.mul_le_mul_right _ (by omega)
    have hm : nm + k * num_modes + 1 ≤ num_modes * 5 := by omega
    have h2 : (nm + k * num_modes + 1) * np ≤ num_modes * 5 * np :=
      Nat.mul_le_mul_right np hm
    have h3 : (nm + k * num_modes + 1) * np = (nm + k * num_modes) * np + np :=
      Nat.succ_mul _ _
    omega

theorem modal_process_gkma_eq (sample_interval output_interval : ℕ)
    (samples_per_output : ℕ) (f_flag : Bool) (num_modes bin_size : ℕ)
    (bin_count bin_sum : ℕ → ℕ) (kappa_unit volume temperature fe : ℚ)
    (rsqrtQ sqrtQ : ℚ → ℚ) (np N1 : ℕ) (step : ℕ) (vx vy vz : ℕ → ℚ)
    (inp : ModalInput) (jmn : ℕ → ℚ)
    (hstep : (step + 1) % sample_interval = 0) :
    modal_process .gkma sample_interval output_interval samples_per_output f_flag
        num_modes bin_size bin_count bin_sum kappa_unit volume temperature fe
        rsqrtQ sqrtQ np N1 step vx vy vz inp jmn =
      (gpu_set_jmn rsqrtQ np N1 num_modes inp
        (gpu_reduce_xdotn np
          (gpu_calc_xdotn sqrtQ np N1 num_modes vx vy vz inp.mass inp.eig)) jmn,
       some (if f_flag then
          gpu_bin_frequencies_val num_modes bin_count bin_sum
            (gpu_reduce_jmn np (gpu_set_jmn rsqrtQ np N1 num_modes inp
              (gpu_reduce_xdotn np
                (gpu_calc_xdotn sqrtQ np N1 num_modes vx vy vz inp.mass inp.eig)) jmn))
        else
          gpu_bin_modes_val num_modes bin_size
            (gpu_reduce_jmn np (gpu_set_jmn rsqrtQ np N1 num_modes inp
              (gpu_reduce_xdotn np
                (gpu_calc_xdotn sqrtQ np N1 num_modes vx vy vz inp.mass inp.eig)) jmn)))) := by
  simp [modal_process, hstep]

theorem modal_process_hnema_sample_eq (sample_interval output_interval : ℕ)
    (samples_per_output : ℕ) (f_flag : Bool) (num_modes bin_size : ℕ)
    (bin_count bin_sum : ℕ → ℕ) (kappa_unit volume temperature fe : ℚ)
    (rsqrtQ sqrtQ : ℚ → ℚ) (np N1 : ℕ) (step : ℕ) (vx vy vz : ℕ → ℚ)
    (inp : ModalInput) (jmn : ℕ → ℚ)
    (hstep : (step + 1) % sample_interval = 0)
    (hout : ¬((step + 1) % output_interval = 0)) :
    modal_process .hnema sample_interval output_interval samples_per_output f_flag
        num_modes bin_size bin_count bin_sum kappa_unit volume temperature fe
        rsqrtQ sqrtQ np N1 step vx vy vz inp jmn =
      (gpu_accumulate_jmn rsqrtQ np N1 num_modes inp
        (gpu_reduce_xdotn np
          (gpu_calc_xdotn sqrtQ np N1 num_modes vx vy vz inp.mass inp.eig)) jmn,
       none) := by
  simp [modal_process, hstep, hout]

theorem modal_process_hnema_output_eq (sample_interval output_interval : ℕ)
    (samples_per_output : ℕ) (f_flag : Bool) (num_modes bin_size : ℕ)
    (bin_count bin_sum : ℕ → ℕ) (kappa_unit volume temperature fe : ℚ)
    (rsqrtQ sqrtQ : ℚ → ℚ) (np N1 : ℕ) (step : ℕ) (vx vy vz : ℕ → ℚ)
    (inp : ModalInput) (jmn : ℕ → ℚ)
    (hstep : (step + 1) % sample_interval = 0)
    (hout : (step + 1) % output_interval = 0) :
    modal_process .hnema sample_interval output_interval samples_per_output f_flag
        num_modes bin_size bin_count bin_sum kappa_unit volume temperature fe
        rsqrtQ sqrtQ np N1 step vx vy vz inp jmn =
      (gpu_reset_data (num_modes * 5 * np)
        (gpu_accumulate_jmn rsqrtQ np N1 num_modes inp
          (gpu_reduce_xdotn np
            (gpu_calc_xdotn sqrtQ np N1 num_modes vx vy vz inp.mass inp.eig)) jmn),
       some (if f_flag then
          gpu_bin_frequencies_val num_modes bin_count bin_sum
            (gpu_scale_jm (num_modes * 5)
              (kappa_unit / (volume * temperature * fe * (samples_per_output : ℚ)))
              (gpu_reduce_jmn np (gpu_accumulate_jmn rsqrtQ np N1 num_modes inp
                (gpu_reduce_xdotn np
                  (gpu_calc_xdotn sqrtQ np N1 num_modes vx vy vz inp.mass inp.eig)) jmn)))
        else
          gpu_bin_modes_val num_modes bin_size
            (gpu_scale_jm (num_modes * 5)
              (kappa_unit / (volume * temperature * fe * (samples_per_output : ℚ)))
              (gpu_reduce_jmn np (gpu_accumulate_jmn rsqrtQ np N1 num_modes inp
                (gpu_reduce_xdotn np
                  (gpu_calc_xdotn sqrtQ np N1 num_modes vx vy vz inp.mass inp.eig)) jmn))))) := by
  simp [modal_process, hstep, hout]

/-- C2: on a sampled step, (1) in GKMA mode `process` fully overwrites every
entry of `jmn` with the freshly computed per-atom modal heat current — the
result does not depend on the previous contents; (2) in HNEMA mode a sampled
non-output call adds the computed value into each entry of `jmn` and emits
nothing; (3) exactly at an output event `((step+1) % output_interval == 0)`
the reduced, scaled and binned result is emitted and (4) every entry of
`jmn` is reset to exactly zero before the next sample. -/
theorem modal_jmn_lifecycle (sample_interval output_interval : ℕ)
    (samples_per_output : ℕ) (f_flag : Bool) (num_modes bin_size : ℕ)
    (bin_count bin_sum : ℕ → ℕ) (kappa_unit volume temperature fe : ℚ)
    (rsqrtQ sqrtQ : ℚ → ℚ) (np N1 : ℕ) (step : ℕ) (vx vy vz : ℕ → ℚ)
    (inp : ModalInput)
    (hstep : (step + 1) % sample_interval = 0) :
    (∀ (jmn : ℕ → ℚ) (neig nm k : ℕ), neig < np → nm < num_modes → k < 5 →
      (modal_process .gkma sample_interval output_interval samples_per_output f_flag
          num_modes bin_size bin_count bin_sum kappa_unit volume temperature fe
          rsqrtQ sqrtQ np N1 step vx vy vz inp jmn).1
          (neig + (nm + k * num_modes) * np) =
        gpu_jmn_value rsqrtQ np N1 num_modes inp
          (gpu_reduce_xdotn np
            (gpu_calc_xdotn sqrtQ np N1 num_modes vx vy vz inp.mass inp.eig))
          neig nm k) ∧
    (¬((step + 1) % output_interval = 0) →
      ∀ (jmn : ℕ → ℚ) (neig nm k : ℕ), neig < np → nm < num_modes → k < 5 →
      (modal_process .hnema sample_interval output_interval samples_per_output f_flag
          num_modes bin_size bin_count bin_sum kappa_unit volume temperature fe
          rsqrtQ sqrtQ np N1 step vx vy vz inp jmn).1
          (neig + (nm + k * num_modes) * np) =
        jmn (neig + (nm + k * num_modes) * np) +
          gpu_jmn_value rsqrtQ np N1 num_modes inp
            (gpu_reduce_xdotn np
              (gpu_calc_xdotn sqrtQ np N1 num_modes vx vy vz inp.mass inp.eig))
            neig nm k) ∧
    (¬((step + 1) % output_interval = 0) → ∀ jmn : ℕ → ℚ,
      (modal_process .hnema sample_interval output_interval samples_per_output f_flag
          num_modes bin_size bin_count bin_sum kappa_unit volume temperature fe
          rsqrtQ sqrtQ np N1 step vx vy vz inp jmn).2 = none) ∧
    ((step + 1) % output_interval = 0 → ∀ (jmn : ℕ → ℚ) (idx : ℕ),
      idx < num_modes * 5 * np →
      (modal_process .hnema sample_interval output_interval samples_per_output f_flag
          num_modes bin_size bin_count bin_sum kappa_unit volume temperature fe
          rsqrtQ sqrtQ np N1 step vx vy vz inp jmn).1 idx = 0) ∧
    ((step + 1) % output_interval = 0 → ∀ jmn : ℕ → ℚ,
      (modal_process .hnema sample_interval output_interval samples_per_output f_flag
          num_modes bin_size bin_count bin_sum kappa_unit volume temperature fe
          rsqrtQ sqrtQ np N1 step vx vy vz inp jmn).2 =
        some (if f_flag then
          gpu_bin_frequencies_val num_modes bin_count bin_sum
            (gpu_scale_jm (num_modes * 5)
              (kappa_unit / (volume * temperature * fe * (samples_per_output : ℚ)))
              (gpu_reduce_jmn np (gpu_accumulate_jmn rsqrtQ np N1 num_modes inp
                (gpu_reduce_xdotn np
                  (gpu_calc_xdotn sqrtQ np N1 num_modes vx vy vz inp.mass inp.eig)) jmn)))
        else
          gpu_bin_modes_val num_modes bin_size
            (gpu_scale_jm (num_modes * 5)
              (kappa_unit / (volume * temperature * fe * (samples_per_output : ℚ)))
              (gpu_reduce_jmn np (gpu_accumulate_jmn rsqrtQ np N1 num_modes inp
                (gpu_reduce_xdotn np
                  (gpu_calc_xdotn sqrtQ np N1 num_modes vx vy vz inp.mass inp.eig)) jmn))))) := by
  refine ⟨?_, ?_, ?_, ?_, ?_⟩
  · intro jmn neig nm k h1 h2 h3
    rw [modal_process_gkma_eq sample_interval output_interval samples_per_output f_flag
      num_modes bin_size bin_count bin_sum kappa_unit volume temperature fe
      rsqrtQ sqrtQ np N1 step vx vy vz inp jmn hstep]
    dsimp only
    obtain ⟨hmod, hm2, hm3, hlt⟩ := jmn_index_decode np num_modes neig nm k h1 h2 h3
    unfold gpu_set_jmn
    rw [if_pos hlt, hmod, hm2, hm3]
  · intro hout jmn neig nm k h1 h2 h3
    rw [modal_process_hnema_sample_eq sample_interval output_interval samples_per_output
      f_flag num_modes bin_size bin_count bin_sum kappa_unit volume temperature fe
      rsqrtQ sqrtQ np N1 step vx vy vz inp jmn hstep hout]
    dsimp only
    obtain ⟨hmod, hm2, hm3, hlt⟩ := jmn_index_decode np num_modes neig nm k h1 h2 h3
    unfold gpu_accumulate_jmn
    rw [if_pos hlt, hmod, hm2, hm3]
  · intro hout jmn
    rw [modal_process_hnema_sample_eq sample_interval output_interval samples_per_output
      f_flag num_modes bin_size bin_count bin_sum kappa_unit volume temperature fe
      rsqrtQ sqrtQ np N1 step vx vy vz inp jmn hstep hout]
  · intro hout jmn idx hidx
    rw [modal_process_hnema_output_eq sample_interval output_interval samples_per_output
      f_flag num_modes bin_size bin_count bin_sum kappa_unit volume temperature fe
      rsqrtQ sqrtQ np N1 step vx vy vz inp jmn hstep hout]
    dsimp only
    unfold gpu_reset_data
    rw [if_pos hidx]
  · intro hout jmn
    rw [modal_process_hnema_output_eq sample_interval output_interval samples_per_output
      f_flag num_modes bin_size bin_count bin_sum kappa_unit volume temperature fe
      rsqrtQ sqrtQ np N1 step vx vy vz inp jmn hstep hout]

/-- Witness for C2: hypotheses hold at a concrete configuration and the GKMA
overwrite equation holds there. -/
theorem modal_jmn_lifecycle_witness :
    (0 + 1) % 1 = 0 ∧
    (modal_process .gkma 1 1 1 false 1 1 (fun _ => 0) (fun _ => 0) 1 1 1 1
        (fun _ => 1) (fun _ => 1) 1 0 0 (fun _ => 1) (fun _ => 1) (fun _ => 1)
        c2inp (fun _ => 9)).1 (0 + (0 + 0 * 1) * 1) =
      gpu_jmn_value (fun _ => 1) 1 0 1 c2inp
        (gpu_reduce_xdotn 1 (gpu_calc_xdotn (fun _ => 1) 1 0 1 (fun _ => 1)
          (fun _ => 1) (fun _ => 1) c2inp.mass c2inp.eig)) 0 0 0 :=
  ⟨by decide,
    (modal_jmn_lifecycle 1 1 1 false 1 1 (fun _ => 0) (fun _ => 0) 1 1 1 1
      (fun _ => 1) (fun _ => 1) 1 0 0 (fun _ => 1) (fun _ => 1) (fun _ => 1) c2inp
      (by decide)).1 (fun _ => 9) 0 0 0 (by decide) (by decide) (by decide)⟩

/-- C10: for mode-index binning (`f_flag == 0`): (1) `num_bins =
num_modes/bin_size` rounds toward zero (`num_bins*bin_size <= num_modes <
num_bins*bin_size + bin_size`); (2) output bin `bid` sums exactly the modes
with indices `bid*bin_size .. (bid+1)*bin_size - 1` of each heat component;
(3) the trailing `num_modes mod bin_size` modes contribute to no bin: the
bin outputs are unchanged by arbitrary modification of any mode entry at or
beyond `num_bins*bin_size`; (4) the launch at an output event with
`f_flag == 0` emits exactly these sums. -/
theorem mode_index_binning (num_modes bin_size : ℕ) (jm jm2 : ℕ → ℚ)
    (hbs : 0 < bin_size) :
    (modal_num_bins_index num_modes bin_size * bin_size ≤ num_modes ∧
      num_modes < modal_num_bins_index num_modes bin_size * bin_size + bin_size) ∧
    (∀ bid c : ℕ,
      gpu_bin_modes_val num_modes bin_size jm bid c =
        ∑ m in Finset.Ico (bid * bin_size) ((bid + 1) * bin_size),
          jm (m + c * num_modes)) ∧
    (∀ bid c : ℕ, bid < modal_num_bins_index num_modes bin_size →
      (∀ m : ℕ, m < modal_num_bins_index num_modes bin_size * bin_size →
        jm (m + c * num_modes) = jm2 (m + c * num_modes)) →
      gpu_bin_modes_val num_modes bin_size jm bid c =
        gpu_bin_modes_val num_modes bin_size jm2 bid c) ∧
    (∀ (sample_interval output_interval samples_per_output np N1 step : ℕ)
        (bin_count bin_sum : ℕ → ℕ) (kappa_unit volume temperature fe : ℚ)
        (rsqrtQ sqrtQ : ℚ → ℚ) (vx vy vz : ℕ → ℚ) (inp : ModalInput) (jmn : ℕ → ℚ),
      (step + 1) % sample_interval = 0 →
      (modal_process .gkma sample_interval output_interval samples_per_output false
          num_modes bin_size bin_count bin_sum kappa_unit volume temperature fe
          rsqrtQ sqrtQ np N1 step vx vy vz inp jmn).2 =
        some (gpu_bin_modes_val num_modes bin_size
          (gpu_reduce_jmn np (gpu_set_jmn rsqrtQ np N1 num_modes inp
            (gpu_reduce_xdotn np
              (gpu_calc_xdotn sqrtQ np N1 num_modes vx vy vz inp.mass inp.eig))
            jmn)))) := by
  refine ⟨?_, ?_, ?_, ?_⟩
  · have h1 := Nat.div_add_mod num_modes bin_size
    have h2 := Nat.mod_lt num_modes hbs
    refine ⟨Nat.div_mul_le_self _ _, ?_⟩
    unfold modal_num_bins_index
    calc num_modes = bin_size * (num_modes / bin_size) + num_modes % bin_size := h1.symm
      _ < bin_size * (num_modes / bin_size) + bin_size := by omega
      _ = num_modes / bin_size * bin_size + bin_size := by rw [Nat.mul_comm]
  · intro bid c
    unfold gpu_bin_modes_val
    rw [Finset.sum_Ico_eq_sum_range]
    rw [show (bid + 1) * bin_size - bid * bin_size = bin_size from by
      rw [Nat.succ_mul]; omega]
    refine Finset.sum_congr rfl fun n _ => ?_
    congr 1
    omega
  · intro bid c hbid hagree
    unfold gpu_bin_modes_val
    refine Finset.sum_congr rfl fun n hn => ?_
    have hn2 := Finset.mem_range.mp hn
    have hlt : n + bid * bin_size < modal_num_bins_index num_modes bin_size * bin_size := by
      calc n + bid * bin_size < bin_size + bid * bin_size := by omega
        _ = (bid + 1) * bin_size := by rw [Nat.succ_mul, Nat.add_comm]
        _ ≤ modal_num_bins_index num_modes bin_size * bin_size :=
          Nat.mul_le_mul_right _ hbid
    exact hagree _ hlt
  · intro sample_interval output_interval samples_per_output np N1 step
      bin_count bin_sum kappa_unit volume temperature fe rsqrtQ sqrtQ
      vx vy vz inp jmn hstep
    rw [modal_process_gkma_eq sample_interval output_interval samples_per_output false
      num_modes bin_size bin_count bin_sum kappa_unit volume temperature fe
      rsqrtQ sqrtQ np N1 step vx vy vz inp jmn hstep]
    simp

/-- Witness for C10 at `num_modes = 5`, `bin_size = 2` (two bins, one
trailing mode). -/
theorem mode_index_binning_witness :
    0 < 2 ∧
    (modal_num_bins_index 5 2 * 2 ≤ 5 ∧ 5 < modal_num_bins_index 5 2 * 2 + 2) :=
  ⟨by decide, (mode_index_binning 5 2 (fun _ => 1) (fun _ => 1) (by decide)).1⟩

theorem freqShift_eq (w f0 : ℚ) (hw : 0 < w) : freqShift w f0 = ⌊|f0| / w⌋ := by
  unfold freqShift freqFmin
  have hnn : (0 : ℚ) ≤ ((⌊|f0| / w⌋ : ℤ) : ℚ) := by
    have hq : (0 : ℚ) ≤ |f0| / w := div_nonneg (abs_nonneg _) hw.le
    exact_mod_cast Int.floor_nonneg.mpr hq
  rw [abs_of_nonneg (mul_nonneg hnn hw.le), mul_div_cancel_right₀ _ (ne_of_gt hw),
    Int.floor_intCast]

theorem freqNumBins_eq (w f0 flast : ℚ) (hw : 0 < w) :
    freqNumBins w f0 flast = ⌊|flast| / w⌋ + 1 - ⌊|f0| / w⌋ := by
  unfold freqNumBins freqFmax freqFmin
  rw [show (((⌊|flast| / w⌋ + 1 : ℤ) : ℚ)) * w - ((⌊|f0| / w⌋ : ℤ) : ℚ) * w =
      ((⌊|flast| / w⌋ + 1 - ⌊|f0| / w⌋ : ℤ) : ℚ) * w from by push_cast; ring]
  rw [mul_div_cancel_right₀ _ (ne_of_gt hw), Int.floor_intCast]

theorem freqBinIndex_eq (w f0 fi : ℚ) (hw : 0 < w) :
    freqBinIndex w f0 fi = ⌊|fi| / w⌋ - ⌊|f0| / w⌋ := by
  unfold freqBinIndex
  rw [freqShift_eq w f0 hw, abs_div, abs_of_pos hw]

theorem prefix_sum_partition (c : ℕ → ℕ) (K : ℕ) :
    ∀ m, m < ∑ b in Finset.range K, c b →
      ∃! b : ℕ, b < K ∧ (∑ x in Finset.range b, c x) ≤ m ∧
        m < (∑ x in Finset.range b, c x) + c b := by
  induction K with
  | zero => simp
  | succ K ih =>
    intro m hm
    rw [Finset.sum_range_succ] at hm
    by_cases hcase : m < ∑ b in Finset.range K, c b
    · obtain ⟨b, ⟨hb1, hb2, hb3⟩, huniq⟩ := ih m hcase
      refine ⟨b, ⟨Nat.lt_succ_of_lt hb1, hb2, hb3⟩, ?_⟩
      rintro b2 ⟨hb21, hb22, hb23⟩
      rcases Nat.lt_succ_iff_lt_or_eq.mp hb21 with hlt | heq
      · exact huniq b2 ⟨hlt, hb22, hb23⟩
      · subst heq
        exact absurd hb22 (not_le.mpr hcase)
    · push_neg at hcase
      refine ⟨K, ⟨Nat.lt_succ_self K, hcase, hm⟩, ?_⟩
      rintro b2 ⟨hb21, hb22, hb23⟩
      rcases Nat.lt_succ_iff_lt_or_eq.mp hb21 with hlt | heq
      · exfalso
        have hle : (∑ x in Finset.range (b2 + 1), c x) ≤ ∑ x in Finset.range K, c x :=
          Finset.sum_le_sum_of_subset (Finset.range_subset.mpr hlt)
        rw [Finset.sum_range_succ] at hle
        omega
      · exact heq

/-- C8 (amended): for an ascending, NON-NEGATIVE mode-frequency list and
positive bin width, (1) every mode's bin index is in range `[0, num_bins)`,
(2) the sum of `bin_count` over all bins is `num_modes` (every mode counted
in exactly one bin), and (3) the slot ranges
`[bin_sum[b], bin_sum[b] + bin_count[b])` partition the mode index range
`0 .. num_modes-1`: every mode index lies in the range of exactly one
bin. -/
theorem freq_binning_partition (w : ℚ) (f : ℕ → ℚ) (num_modes : ℕ)
    (hw : 0 < w) (hn : 0 < num_modes)
    (hmono : ∀ i j : ℕ, i ≤ j → j < num_modes → f i ≤ f j)
    (h0 : 0 ≤ f 0) :
    (∀ i < num_modes, 0 ≤ freqBinIndex w (f 0) (f i) ∧
      freqBinIndex w (f 0) (f i) < freqNumBins w (f 0) (f (num_modes - 1))) ∧
    (∑ b in Finset.range (freqNumBins w (f 0) (f (num_modes - 1))).toNat,
        freqBinCount w (f 0) f num_modes (b : ℤ)) = num_modes ∧
    (∀ m < num_modes, ∃! b : ℕ,
      b < (freqNumBins w (f 0) (f (num_modes - 1))).toNat ∧
      freqBinSum w (f 0) f num_modes b ≤ m ∧
      m < freqBinSum w (f 0) f num_modes b +
        freqBinCount w (f 0) f num_modes (b : ℤ)) := by
  have hbound : ∀ i < num_modes, 0 ≤ freqBinIndex w (f 0) (f i) ∧
      freqBinIndex w (f 0) (f i) < freqNumBins w (f 0) (f (num_modes - 1)) := by
    intro i hi
    have h0le : f 0 ≤ f i := hmono 0 i (Nat.zero_le i) hi
    have hfi : 0 ≤ f i := le_trans h0 h0le
    have hlast : f i ≤ f (num_modes - 1) := hmono i (num_modes - 1) (by omega) (by omega)
    have hflast : 0 ≤ f (num_modes - 1) := le_trans hfi hlast
    rw [freqBinIndex_eq w (f 0) (f i) hw, freqNumBins_eq w (f 0) (f (num_modes - 1)) hw,
      abs_of_nonneg hfi, abs_of_nonneg h0, abs_of_nonneg hflast]
    have hf1 : ⌊f 0 / w⌋ ≤ ⌊f i / w⌋ :=
      Int.floor_le_floor ((div_le_div_iff_of_pos_right hw).mpr h0le)
    have hf2 : ⌊f i / w⌋ ≤ ⌊f (num_modes - 1) / w⌋ :=
      Int.floor_le_floor ((div_le_div_iff_of_pos_right hw).mpr hlast)
    omega
  have hsum : (∑ b in Finset.range (freqNumBins w (f 0) (f (num_modes - 1))).toNat,
      freqBinCount w (f 0) f num_modes (b : ℤ)) = num_modes := by
    have hkey : ∀ i ∈ Finset.range num_modes,
        (freqBinIndex w (f 0) (f i)).toNat ∈
          Finset.range (freqNumBins w (f 0) (f (num_modes - 1))).toNat := by
      intro i hi
      obtain ⟨hge, hlt⟩ := hbound i (Finset.mem_range.mp hi)
      rw [Finset.mem_range]
      omega
    have hcard := Finset.card_eq_sum_card_fiberwise hkey
    rw [Finset.card_range] at hcard
    refine Eq.trans (Finset.sum_congr rfl fun b hb => ?_) hcard.symm
    unfold freqBinCount
    congr 1
    refine Finset.filter_congr fun i hi => ?_
    obtain ⟨hge, -⟩ := hbound i (Finset.mem_range.mp hi)
    omega
  refine ⟨hbound, hsum, ?_⟩
  intro m hm
  unfold freqBinSum
  exact prefix_sum_partition (fun b => freqBinCount w (f 0) f num_modes (b : ℤ))
    (freqNumBins w (f 0) (f (num_modes - 1))).toNat m (by rw [hsum]; exact hm)

/-- C8 counterexample: the ascending two-mode frequency list `-10, 1` with
bin width 1 satisfies the claim's hypotheses, yet the computed
`num_bins = floor((fmax-fmin)/f_bin_size)` is negative (−8), so the sum of
`bin_count` over all bins is 0, not `num_modes = 2`: with a negative first
frequency the modes are not counted in any in-range bin. -/
theorem freq_binning_negative_first_mode :
    c8f 0 ≤ c8f 1 ∧ (0 : ℚ) < 1 ∧
    (∀ i j : ℕ, i ≤ j → j < 2 → c8f i ≤ c8f j) ∧
    freqNumBins 1 (c8f 0) (c8f (2 - 1)) = -8 ∧
    (∑ b in Finset.range (freqNumBins 1 (c8f 0) (c8f (2 - 1))).toNat,
      freqBinCount 1 (c8f 0) c8f 2 (b : ℤ)) ≠ 2 := by
  have hmono : ∀ i j : ℕ, i ≤ j → j < 2 → c8f i ≤ c8f j := by
    intro i j hij hj
    unfold c8f
    by_cases h1 : i = 0
    · subst h1
      by_cases h2 : j = 0
      · subst h2
        norm_num
      · simp only [h2, if_false, if_pos rfl]
        norm_num
    · have h2 : j ≠ 0 := by omega
      simp [h1, h2]
  have h0 : c8f 0 = -10 := rfl
  have h1 : c8f (2 - 1) = 1 := rfl
  have hnb : freqNumBins 1 (c8f 0) (c8f (2 - 1)) = -8 := by
    rw [h0, h1, freqNumBins_eq 1 (-10 : ℚ) 1 one_pos,
      show |(1 : ℚ)| = 1 from abs_of_pos one_pos,
      show |(-10 : ℚ)| = 10 from by rw [abs_of_neg (by norm_num)]; norm_num]
    norm_num
  refine ⟨by norm_num [c8f], one_pos, hmono, hnb, ?_⟩
  rw [hnb]
  rw [show ((-8 : ℤ).toNat) = 0 from rfl, Finset.range_zero, Finset.sum_empty]
  decide

/-- Witness for C8 (amended): the ascending non-negative list `0, 1` with
bin width 1; both modes are counted. -/
theorem freq_binning_partition_witness :
    (0 : ℚ) < 1 ∧ 0 < 2 ∧ (∀ i j : ℕ, i ≤ j → j < 2 → c8g i ≤ c8g j) ∧
    (0 : ℚ) ≤ c8g 0 ∧
    (∑ b in Finset.range (freqNumBins 1 (c8g 0) (c8g (2 - 1))).toNat,
      freqBinCount 1 (c8g 0) c8g 2 (b : ℤ)) = 2 :=
  ⟨one_pos, by decide, fun i j hij hj => by unfold c8g; exact_mod_cast hij,
    by norm_num [c8g],
    (freq_binning_partition 1 c8g 2 one_pos (by decide)
      (fun i j hij hj => by unfold c8g; exact_mod_cast hij) (by norm_num [c8g])).2.1⟩
